import Mathlib

/-!
Verification of the Mono-tower core: fixed-timestep physics, sphere-vs-box
collision resolution with seam suppression, and the procedural level
generator.  All numeric state is modelled over `ℚ` (the source runs on IEEE
doubles; every concrete computation checked here stays well inside the range
where doubles are exact or the comparisons have ample margin).  `Math.sqrt`
is threaded as an explicit function parameter `sqrtFn : ℚ → ℚ`; theorems that
depend on a square root carry the hypothesis that `sqrtFn` is exact at the
(perfect-square) arguments actually encountered.
-/

/-- 3-component vector over ℚ, mirroring THREE.Vector3 as used by the core. -/
structure Vec3 where
  x : ℚ
  y : ℚ
  z : ℚ
  deriving DecidableEq, Repr

namespace Vec3

def add (a b : Vec3) : Vec3 := ⟨a.x + b.x, a.y + b.y, a.z + b.z⟩

def smul (a : Vec3) (s : ℚ) : Vec3 := ⟨a.x * s, a.y * s, a.z * s⟩

def dot (a b : Vec3) : ℚ := a.x * b.x + a.y * b.y + a.z * b.z

def zero : Vec3 := ⟨0, 0, 0⟩

end Vec3

/-- CONFIG from src/constants (fields used by the core). -/
structure GameConfig where
  blockSize : ℚ
  gravity : ℚ
  jumpForce : ℚ
  moveSpeed : ℚ
  friction : ℚ
  maxSpeed : ℚ
  playerRadius : ℚ
  deriving Repr

/-- The CONFIG record of src/constants. -/
def CONFIG : GameConfig :=
  { blockSize := 40
    gravity := 13/20      -- 0.65
    jumpForce := 14
    moveSpeed := 6/5      -- 1.2
    friction := 41/50     -- 0.82
    maxSpeed := 10
    playerRadius := 20 }

/-- PHYSICS from src/constants. -/
structure PhysicsConfig where
  collisionRange : ℚ
  coyoteFrames : ℕ
  deriving Repr

def PHYSICS : PhysicsConfig := { collisionRange := 80, coyoteFrames := 5 }

/-- BlockType from src/types (Standard = 1, Spike = 3; the spec calls Spike
the Hazard type). -/
inductive BlockType where
  | Standard
  | Spike
  deriving DecidableEq, Repr

/-- BlockData from src/types. -/
structure BlockData where
  min : Vec3
  max : Vec3
  center : Vec3
  gx : ℤ
  gy : ℤ
  gz : ℤ
  type : BlockType
  id : ℕ
  deriving DecidableEq, Repr

/-- Grid key; the source keys its Map with the string template
`gx,gz,gz`-style `${gx},${gy},${gz}`, an injective encoding of the integer
triple, so the triple itself is used as the key here. -/
abbrev GridKey := ℤ × ℤ × ℤ

/-- BlockMap from src/types: a JS `Map<string, BlockData>` with insertion
order, modelled as an association list. -/
abbrev BlockMap := List (GridKey × BlockData)

namespace BlockMap

/-- JS `map.has(k)`. -/
def has (m : BlockMap) (k : GridKey) : Bool := m.any (fun kv => kv.1 = k)

/-- JS `map.get(k)` (keys are unique in every map the generator builds). -/
def get (m : BlockMap) (k : GridKey) : Option BlockData :=
  (m.find? (fun kv => kv.1 = k)).map (fun kv => kv.2)

/-- JS `map.set(k, v)`: replace in place if the key exists, else append. -/
def set (m : BlockMap) (k : GridKey) (v : BlockData) : BlockMap :=
  if has m k then m.map (fun kv => if kv.1 = k then (k, v) else kv)
  else m ++ [(k, v)]

end BlockMap

/-- PlayerState from src/types. -/
structure PlayerState where
  pos : Vec3
  vel : Vec3
  grounded : Bool
  coyoteTime : ℕ
  deriving DecidableEq, Repr

/-- PhysicsEngine.applyPhysics (src/services/PhysicsEngine.ts lines 262-283):
add input force, apply friction to x/z, subtract gravity from y, clamp
horizontal speed to maxSpeed by uniform rescale, then add velocity to
position.  `sqrtFn` models `Math.sqrt`. -/
def applyPhysics (sqrtFn : ℚ → ℚ) (player : PlayerState) (inputForce : Vec3) :
    PlayerState :=
  -- Add movement force
  let v0 := player.vel.add inputForce
  -- Friction
  let v1 : Vec3 := ⟨v0.x * CONFIG.friction, v0.y, v0.z * CONFIG.friction⟩
  -- Gravity
  let v2 : Vec3 := ⟨v1.x, v1.y - CONFIG.gravity, v1.z⟩
  -- Speed Limit (Horizontal only)
  let hSpeed := sqrtFn (v2.x ^ 2 + v2.z ^ 2)
  let v3 : Vec3 :=
    if CONFIG.maxSpeed < hSpeed then
      let scale := CONFIG.maxSpeed / hSpeed
      ⟨v2.x * scale, v2.y, v2.z * scale⟩
    else v2
  -- Apply Velocity
  { player with vel := v3, pos := player.pos.add v3 }

section IntegratorSteps

/-- Step 1 of the integrator: add the input force to velocity. -/
def forceStep (player : PlayerState) (inputForce : Vec3) : PlayerState :=
  { player with vel := player.vel.add inputForce }

/-- Step 2: multiply the horizontal velocity components by friction. -/
def frictionStep (player : PlayerState) : PlayerState :=
  { player with vel :=
      ⟨player.vel.x * CONFIG.friction, player.vel.y,
        player.vel.z * CONFIG.friction⟩ }

/-- Step 3: subtract gravity from the vertical velocity component. -/
def gravityStep (player : PlayerState) : PlayerState :=
  { player with vel :=
      ⟨player.vel.x, player.vel.y - CONFIG.gravity, player.vel.z⟩ }

/-- Step 4: clamp horizontal speed to maxSpeed by uniform rescale, leaving
the vertical component untouched. -/
def clampStep (sqrtFn : ℚ → ℚ) (player : PlayerState) : PlayerState :=
  let hSpeed := sqrtFn (player.vel.x ^ 2 + player.vel.z ^ 2)
  if CONFIG.maxSpeed < hSpeed then
    let scale := CONFIG.maxSpeed / hSpeed
    { player with vel := ⟨player.vel.x * scale, player.vel.y,
        player.vel.z * scale⟩ }
  else player

/-- Step 5: add the (final) velocity to the position. -/
def velocityStep (player : PlayerState) : PlayerState :=
  { player with pos := player.pos.add player.vel }

end IntegratorSteps

/-- PhysicsEngine.clamp: `Math.max(min, Math.min(max, v))`. -/
def clampQ (v lo hi : ℚ) : ℚ := max lo (min hi v)

/-- `Math.sign`, as an integer offset (the source adds it to a grid index). -/
def signZ (v : ℚ) : ℤ := if 0 < v then 1 else if v < 0 then -1 else 0

/-- PhysicsEngine.getNeighbor. -/
def getNeighbor (blockMap : BlockMap) (gx gy gz : ℤ) : Option BlockData :=
  BlockMap.get blockMap (gx, gy, gz)

/-- One candidate of PhysicsEngine.tryMergeWithNeighbor's loop: merge `block`
with `nb` if `nb` is Standard, on the same layer, and touches face-to-face. -/
def mergeWith (block nb : BlockData) : Option (Vec3 × Vec3) :=
  if nb.type ≠ BlockType.Standard then none
  else if nb.gy ≠ block.gy then none
  else
    let touchesX := nb.gz = block.gz ∧ (nb.gx - block.gx).natAbs = 1
    let touchesZ := nb.gx = block.gx ∧ (nb.gz - block.gz).natAbs = 1
    if touchesX ∨ touchesZ then
      some (⟨min block.min.x nb.min.x, min block.min.y nb.min.y,
              min block.min.z nb.min.z⟩,
            ⟨max block.max.x nb.max.x, max block.max.y nb.max.y,
              max block.max.z nb.max.z⟩)
    else none

/-- First successful merge along the neighbor list. -/
def firstMerge (block : BlockData) : List BlockData → Option (Vec3 × Vec3)
  | [] => none
  | nb :: rest =>
    match mergeWith block nb with
    | some mm => some mm
    | none => firstMerge block rest

/-- PhysicsEngine.tryMergeWithNeighbor: only Standard blocks merge; the four
horizontal neighbors are tried in +x, -x, +z, -z order and the first
face-to-face Standard neighbor on the same layer wins. -/
def tryMergeWithNeighbor (block : BlockData) (blockMap : BlockMap) :
    Option (Vec3 × Vec3) :=
  if block.type ≠ BlockType.Standard then none
  else
    let neighbors :=
      [getNeighbor blockMap (block.gx + 1) block.gy block.gz,
       getNeighbor blockMap (block.gx - 1) block.gy block.gz,
       getNeighbor blockMap block.gx block.gy (block.gz + 1),
       getNeighbor blockMap block.gx block.gy (block.gz - 1)].filterMap id
    firstMerge block neighbors

/-- The BFS of PhysicsEngine.mergeAllConnectedOnLayer: flood fill on the
start layer over 4-neighbor-adjacent Standard blocks, accumulating a merged
AABB.  The source's `while (queue.length)` loop terminates because the map is
finite; here the recursion carries fuel, and the caller supplies fuel
exceeding the maximal possible number of queue pops (`4·|map| + 5`), so the
fuel never runs out on the maps the program builds. -/
def bfsMerge (blockMap : BlockMap) (startGy : ℤ) :
    ℕ → List GridKey → List GridKey → Vec3 × Vec3 → Vec3 × Vec3
  | 0, _, _, acc => acc
  | _ + 1, [], _, acc => acc
  | fuel + 1, k :: queue, visited, acc =>
    if k ∈ visited then bfsMerge blockMap startGy fuel queue visited acc
    else
      let visited1 := k :: visited
      match BlockMap.get blockMap k with
      | none => bfsMerge blockMap startGy fuel queue visited1 acc
      | some b =>
        if b.type ≠ BlockType.Standard ∨ b.gy ≠ startGy then
          bfsMerge blockMap startGy fuel queue visited1 acc
        else
          let acc1 : Vec3 × Vec3 :=
            (⟨min acc.1.x b.min.x, min acc.1.y b.min.y, min acc.1.z b.min.z⟩,
             ⟨max acc.2.x b.max.x, max acc.2.y b.max.y, max acc.2.z b.max.z⟩)
          bfsMerge blockMap startGy fuel
            (queue ++ [(k.1 + 1, k.2.1, k.2.2), (k.1 - 1, k.2.1, k.2.2),
                       (k.1, k.2.1, k.2.2 + 1), (k.1, k.2.1, k.2.2 - 1)])
            visited1 acc1

/-- PhysicsEngine.mergeAllConnectedOnLayer. -/
def mergeAllConnectedOnLayer (start : BlockData) (blockMap : BlockMap) :
    Vec3 × Vec3 :=
  bfsMerge blockMap start.gy (4 * blockMap.length + 5)
    [(start.gx, start.gy, start.gz)] [] (start.min, start.max)

/-- The AABB the resolver actually tests a block against
(`merged?.min ?? b.min`, `merged?.max ?? b.max`): the whole connected layer
for Standard blocks, the raw box for Spike blocks (tryMergeWithNeighbor
returns null for non-Standard blocks). -/
def effectiveBounds (b : BlockData) (blockMap : BlockMap) : Vec3 × Vec3 :=
  let merged :=
    if b.type = BlockType.Standard then some (mergeAllConnectedOnLayer b blockMap)
    else tryMergeWithNeighbor b blockMap
  merged.getD (b.min, b.max)

/-- Squared distance from point `p` to the AABB `[mn, mx]` via the per-axis
clamp, exactly as the resolver computes it. -/
def distSqTo (p : Vec3) (mn mx : Vec3) : ℚ :=
  (p.x - clampQ p.x mn.x mx.x) * (p.x - clampQ p.x mn.x mx.x) +
    (p.y - clampQ p.y mn.y mx.y) * (p.y - clampQ p.y mn.y mx.y) +
    (p.z - clampQ p.z mn.z mx.z) * (p.z - clampQ p.z mn.z mx.z)

/-- Result of one iteration of the block loop in resolveCollisions. -/
structure BlockEffect where
  player : PlayerState
  groundedFlag : Bool
  hazard : Bool
  deriving DecidableEq, Repr

/-- The body of the block loop of PhysicsEngine.resolveCollisions
(src/services/PhysicsEngine.ts lines 141-244) for one block `b`: broad-phase
reject, closest-point test against the (merged) AABB, hazard shortcut, seam
suppression, push-out, velocity cancellation, grounded flag. -/
def broadphaseSkip (b : BlockData) (pos : Vec3) : Prop :=
  PHYSICS.collisionRange < |b.center.x - pos.x| ∨
  PHYSICS.collisionRange < |b.center.y - pos.y| ∨
  PHYSICS.collisionRange < |b.center.z - pos.z|

instance (b : BlockData) (pos : Vec3) : Decidable (broadphaseSkip b pos) := by
  rw [broadphaseSkip]; infer_instance

/-- The per-axis clamp of the player position into the (merged) AABB. -/
def closestPoint (pos mn mx : Vec3) : Vec3 :=
  ⟨clampQ pos.x mn.x mx.x, clampQ pos.y mn.y mx.y, clampQ pos.z mn.z mx.z⟩

/-- The contact normal the resolver computes for a block: the offset from
the closest point on the (merged) AABB to the sphere center, divided by its
length `Math.sqrt(distSq)`. -/
def contactNormal (sqrtFn : ℚ → ℚ) (blockMap : BlockMap) (b : BlockData)
    (pos : Vec3) : Vec3 :=
  let mm := effectiveBounds b blockMap
  let cp := closestPoint pos mm.1 mm.2
  let distX := pos.x - cp.x
  let distY := pos.y - cp.y
  let distZ := pos.z - cp.z
  let dist := sqrtFn (distX * distX + distY * distY + distZ * distZ)
  ⟨distX / dist, distY / dist, distZ / dist⟩

/-- The resolution step of the block loop for a colliding non-Spike block
(src/services/PhysicsEngine.ts lines 164-227): normal from the closest
point, seam suppression (seam-like on downward motion, or a neighbor block
in the dominant horizontal normal direction), push-out, velocity
cancellation, grounded flag.  Returns the updated player and grounded flag. -/
def resolveContact (sqrtFn : ℚ → ℚ) (blockMap : BlockMap) (b : BlockData)
    (p : PlayerState) (g : Bool) : PlayerState × Bool :=
  let mm := effectiveBounds b blockMap
  let cp := closestPoint p.pos mm.1 mm.2
  let distX := p.pos.x - cp.x
  let distY := p.pos.y - cp.y
  let distZ := p.pos.z - cp.z
  let distSq := distX * distX + distY * distY + distZ * distZ
  let dist := sqrtFn distSq
  let normal := contactNormal sqrtFn blockMap b p.pos
  let penetration := CONFIG.playerRadius - dist
  -- Internal seam smoothing
  let absX := |normal.x|
  let absY := |normal.y|
  let absZ := |normal.z|
  let movingDown : Prop := p.vel.y < 0
  let seamLike : Prop :=
    movingDown ∧ absY < 7/20 ∧ (1/2 < absX ∨ 1/2 < absZ)
  let hasNeighborInNormalDir : Bool :=
    if absY < 1/2 then
      if absZ < absX then
        BlockMap.has blockMap (b.gx + signZ normal.x, b.gy, b.gz)
      else
        BlockMap.has blockMap (b.gx, b.gy, b.gz + signZ normal.z)
    else false
  if seamLike ∨ hasNeighborInNormalDir = true then (p, g)
  else
    -- Push out
    let p1 := { p with pos := p.pos.add (normal.smul penetration) }
    -- Cancel velocity into the wall
    let velAlongNormal := p1.vel.dot normal
    if velAlongNormal < 0 then
      let j := -velAlongNormal
      let p2 := { p1 with vel := p1.vel.add (normal.smul j) }
      (p2, if 7/10 < normal.y then true else g)
    else (p1, g)

def processBlock (sqrtFn : ℚ → ℚ) (blockMap : BlockMap) (b : BlockData)
    (p : PlayerState) (g : Bool) : BlockEffect :=
  -- Optimization: Only check blocks nearby
  if broadphaseSkip b p.pos then ⟨p, g, false⟩
  else
    -- AABB vs Sphere closest point (optionally merged); distSqTo names the
    -- closest-point squared distance the source computes inline
    let distSq := distSqTo p.pos (effectiveBounds b blockMap).1
      (effectiveBounds b blockMap).2
    -- Collision detected
    if distSq < CONFIG.playerRadius * CONFIG.playerRadius ∧
        1 / 100000 < distSq then
      -- Spike collision check
      if b.type = BlockType.Spike then ⟨p, g, true⟩
      else
        let r := resolveContact sqrtFn blockMap b p g
        ⟨r.1, r.2, false⟩
    else ⟨p, g, false⟩

/-- The block loop of resolveCollisions; the ℕ result counts `onReset`
invocations (the source `return`s right after the first one, so the loop
stops there and later blocks are never examined). -/
def resolveLoop (sqrtFn : ℚ → ℚ) (blockMap : BlockMap) :
    List BlockData → PlayerState → Bool → PlayerState × Bool × ℕ
  | [], p, g => (p, g, 0)
  | b :: rest, p, g =>
    let e := processBlock sqrtFn blockMap b p g
    if e.hazard then (e.player, e.groundedFlag, 1)
    else resolveLoop sqrtFn blockMap rest e.player e.groundedFlag

/-- PhysicsEngine.resolveCollisions.  Returns the updated player and the
number of `onReset` callback invocations; on a hazard hit the source returns
immediately, skipping the post-loop grounded/coyote state-machine update. -/
def resolveCollisions (sqrtFn : ℚ → ℚ) (player : PlayerState)
    (blocks : List BlockData) (blockMap : BlockMap) : PlayerState × ℕ :=
  let res := resolveLoop sqrtFn blockMap blocks player false
  if res.2.2 ≠ 0 then (res.1, res.2.2)
  else
    -- State update based on collision results
    if res.2.1 then
      ({ res.1 with grounded := true, coyoteTime := PHYSICS.coyoteFrames }, 0)
    else if 0 < res.1.coyoteTime then
      ({ res.1 with coyoteTime := res.1.coyoteTime - 1 }, 0)
    else ({ res.1 with grounded := false }, 0)

/-- GameEngine.resetPlayer (src/services/GameEngine.ts lines 204-210): the
reset callback sets position to the spawn point and velocity to zero (it
also clears the InputState and emits a status message, neither part of
PlayerState); the remaining PlayerState fields are not written. -/
def resetPlayer (p : PlayerState) : PlayerState :=
  { p with pos := ⟨0, 150, 0⟩, vel := ⟨0, 0, 0⟩ }

/-- One solver iteration as driven by GameEngine.fixedUpdate: resolve, and on
a hazard hit the `onReset` callback has already overwritten the player. -/
def solveOnce (sqrtFn : ℚ → ℚ) (blocks : List BlockData) (blockMap : BlockMap)
    (p : PlayerState) : PlayerState :=
  let res := resolveCollisions sqrtFn p blocks blockMap
  if res.2 ≠ 0 then resetPlayer res.1 else res.1

/-- The physics part of GameEngine.fixedUpdate (src/services/GameEngine.ts):
one applyPhysics call, four resolveCollisions iterations, the jump
application (consuming the jump request), and the fall-through check.  Score
reporting and the victory message do not alter PlayerState. -/
def fixedUpdatePhysics (sqrtFn : ℚ → ℚ) (blocks : List BlockData)
    (blockMap : BlockMap) (inputForce : Vec3) (space : Bool)
    (player : PlayerState) : PlayerState :=
  let p1 := applyPhysics sqrtFn player inputForce
  -- Resolve collisions 4 times for stability
  let p2 := solveOnce sqrtFn blocks blockMap
    (solveOnce sqrtFn blocks blockMap
      (solveOnce sqrtFn blocks blockMap (solveOnce sqrtFn blocks blockMap p1)))
  -- Jump
  let p3 :=
    if space = true ∧ (p2.grounded = true ∨ 0 < p2.coyoteTime) then
      { p2 with vel := ⟨p2.vel.x, CONFIG.jumpForce, p2.vel.z⟩,
                grounded := false, coyoteTime := 0 }
    else p2
  -- Fall check
  if p3.pos.y < -300 then resetPlayer p3 else p3

/-- Jump eligibility as tested by fixedUpdate: `grounded || coyoteTime > 0`. -/
def jumpEligible (p : PlayerState) : Prop :=
  p.grounded = true ∨ 0 < p.coyoteTime

/-- Componentwise AABB union, as accumulated inside the flood-fill loop. -/
def expandBounds (acc : Vec3 × Vec3) (b : BlockData) : Vec3 × Vec3 :=
  (⟨min acc.1.x b.min.x, min acc.1.y b.min.y, min acc.1.z b.min.z⟩,
   ⟨max acc.2.x b.max.x, max acc.2.y b.max.y, max acc.2.z b.max.z⟩)

/-- The key trace of the flood fill of mergeAllConnectedOnLayer: the grid
keys whose block passes the Standard/same-layer check, in processing order
(pure grid computation, no geometry). -/
def bfsCells (blockMap : BlockMap) (startGy : ℤ) :
    ℕ → List GridKey → List GridKey → List GridKey
  | 0, _, _ => []
  | _ + 1, [], _ => []
  | fuel + 1, k :: queue, visited =>
    if k ∈ visited then bfsCells blockMap startGy fuel queue visited
    else
      let visited1 := k :: visited
      match BlockMap.get blockMap k with
      | none => bfsCells blockMap startGy fuel queue visited1
      | some b =>
        if b.type ≠ BlockType.Standard ∨ b.gy ≠ startGy then
          bfsCells blockMap startGy fuel queue visited1
        else
          k :: bfsCells blockMap startGy fuel
            (queue ++ [(k.1 + 1, k.2.1, k.2.2), (k.1 - 1, k.2.1, k.2.2),
                       (k.1, k.2.1, k.2.2 + 1), (k.1, k.2.1, k.2.2 - 1)])
            visited1

/-- The flood fill is the bounds-fold over its key trace: lets concrete
merges be evaluated on the grid first and on geometry second. -/
theorem bfsMerge_eq_fold (blockMap : BlockMap) (startGy : ℤ) :
    ∀ (fuel : ℕ) (queue visited : List GridKey) (acc : Vec3 × Vec3),
      bfsMerge blockMap startGy fuel queue visited acc =
        ((bfsCells blockMap startGy fuel queue visited).filterMap
          (BlockMap.get blockMap)).foldl expandBounds acc := by
  intro fuel
  induction fuel with
  | zero => intro queue visited acc; rfl
  | succ n ih =>
    intro queue visited acc
    match queue with
    | [] => rfl
    | k :: rest =>
      rw [bfsMerge, bfsCells]
      by_cases hv : k ∈ visited
      · simp only [if_pos hv]; exact ih rest visited acc
      · simp only [if_neg hv]
        cases hget : BlockMap.get blockMap k with
        | none => exact ih rest (k :: visited) acc
        | some b =>
          by_cases ht : b.type ≠ BlockType.Standard ∨ b.gy ≠ startGy
          · simp only [if_pos ht]; exact ih rest (k :: visited) acc
          · simp only [if_neg ht, List.filterMap_cons, hget, List.foldl_cons]
            exact ih _ (k :: visited) (expandBounds acc b)

theorem standard_ne_spike : ¬BlockType.Standard = BlockType.Spike :=
  fun h => BlockType.noConfusion h

/-- A unit block exactly as LevelGenerator.addBlock lays it out (blockSize
40, half-extent 20). -/
def gridBlock (gx gy gz : ℤ) (t : BlockType) (id : ℕ) : BlockData :=
  let px : ℚ := gx * 40
  let py : ℚ := gy * 40
  let pz : ℚ := gz * 40
  { min := ⟨px - 20, py - 20, pz - 20⟩, max := ⟨px + 20, py + 20, pz + 20⟩,
    center := ⟨px, py, pz⟩, gx := gx, gy := gy, gz := gz, type := t, id := id }

/-- A block whose collision test fails (too far, or too deep) leaves the
loop state untouched. -/
theorem processBlock_noCollision (sqrtFn : ℚ → ℚ) (blockMap : BlockMap)
    (b : BlockData) (p : PlayerState) (g : Bool)
    (h : ¬(distSqTo p.pos (effectiveBounds b blockMap).1
          (effectiveBounds b blockMap).2 <
        CONFIG.playerRadius * CONFIG.playerRadius ∧
        1 / 100000 < distSqTo p.pos (effectiveBounds b blockMap).1
          (effectiveBounds b blockMap).2)) :
    processBlock sqrtFn blockMap b p g = ⟨p, g, false⟩ := by
  rw [processBlock]
  by_cases hbp : broadphaseSkip b p.pos
  · rw [if_pos hbp]
  · rw [if_neg hbp]
    exact if_neg h

/-- The horizontal speed squared that applyPhysics hands to `Math.sqrt`
(velocity after force, friction and gravity, before the clamp). -/
def preClampHSq (p : PlayerState) (f : Vec3) : ℚ :=
  ((p.vel.x + f.x) * CONFIG.friction) ^ 2 + ((p.vel.z + f.z) * CONFIG.friction) ^ 2

/-- applyPhysics is definitionally the five-step pipeline, branch by branch. -/
theorem applyPhysics_steps (sqrtFn : ℚ → ℚ) (p : PlayerState) (f : Vec3) :
    applyPhysics sqrtFn p f =
      velocityStep (clampStep sqrtFn (gravityStep (frictionStep (forceStep p f)))) := by
  by_cases hc : CONFIG.maxSpeed <
      sqrtFn (((p.vel.x + f.x) * CONFIG.friction) ^ 2 +
        ((p.vel.z + f.z) * CONFIG.friction) ^ 2)
  · simp only [applyPhysics, forceStep, frictionStep, gravityStep, clampStep,
      velocityStep, Vec3.add, if_pos hc]
  · simp only [applyPhysics, forceStep, frictionStep, gravityStep, clampStep,
      velocityStep, Vec3.add, if_neg hc]

/-- C8: applyPhysics is exactly the five-step pipeline force-add, friction,
gravity, horizontal clamp, position update, in this order; afterwards the
horizontal speed is at most maxSpeed and the new position is the old
position plus the new velocity.  The sqrt hypotheses say `sqrtFn` is exact
at the one argument applyPhysics feeds it. -/
theorem applyPhysics_order_and_postcondition (sqrtFn : ℚ → ℚ)
    (p : PlayerState) (f : Vec3)
    (hsq : sqrtFn (preClampHSq p f) * sqrtFn (preClampHSq p f) = preClampHSq p f)
    (hnn : 0 ≤ sqrtFn (preClampHSq p f)) :
    applyPhysics sqrtFn p f =
      velocityStep (clampStep sqrtFn (gravityStep (frictionStep (forceStep p f)))) ∧
    (applyPhysics sqrtFn p f).vel.x ^ 2 + (applyPhysics sqrtFn p f).vel.z ^ 2 ≤
      CONFIG.maxSpeed ^ 2 ∧
    (applyPhysics sqrtFn p f).pos = p.pos.add (applyPhysics sqrtFn p f).vel := by
  have hq : preClampHSq p f =
      ((p.vel.x + f.x) * CONFIG.friction) ^ 2 +
        ((p.vel.z + f.z) * CONFIG.friction) ^ 2 := rfl
  rw [hq] at hsq hnn
  refine ⟨applyPhysics_steps sqrtFn p f, ?_, rfl⟩
  set s := sqrtFn (((p.vel.x + f.x) * CONFIG.friction) ^ 2 +
      ((p.vel.z + f.z) * CONFIG.friction) ^ 2) with hs
  by_cases hc : CONFIG.maxSpeed < s
  · have hspos : (0:ℚ) < s := by
      have : (0:ℚ) < CONFIG.maxSpeed := by norm_num [CONFIG]
      linarith
    simp only [applyPhysics, Vec3.add, ← hs, if_pos hc]
    have hexp : ((p.vel.x + f.x) * CONFIG.friction * (CONFIG.maxSpeed / s)) ^ 2 +
        ((p.vel.z + f.z) * CONFIG.friction * (CONFIG.maxSpeed / s)) ^ 2 =
        (((p.vel.x + f.x) * CONFIG.friction) ^ 2 +
          ((p.vel.z + f.z) * CONFIG.friction) ^ 2) * CONFIG.maxSpeed ^ 2 / (s * s) := by
      field_simp
      ring
    rw [hexp, ← hsq]
    have hss : s * s ≠ 0 := by positivity
    rw [mul_div_assoc, mul_comm, div_mul_cancel₀ _ hss]
  · push_neg at hc
    simp only [applyPhysics, Vec3.add, ← hs, if_neg (not_lt.mpr hc)]
    have hmax : (0:ℚ) ≤ CONFIG.maxSpeed := by norm_num [CONFIG]
    nlinarith [hsq, hnn, hc]

/-- Concrete sqrt oracle for the C8 witness (exact at 2500). -/
def sqrtW2500 : ℚ → ℚ := fun q => if q = 2500 then 50 else 0

/-- Player for the C8 witness: post-friction horizontal velocity (30, 40),
horizontal speed 50 > maxSpeed, so the clamp branch fires. -/
def pC8 : PlayerState := ⟨⟨0, 0, 0⟩, ⟨1500/41, 0, 2000/41⟩, false, 0⟩

/-- C8 witness: the theorem applied at a concrete clamping input. -/
theorem applyPhysics_order_and_postcondition_witness :
    applyPhysics sqrtW2500 pC8 ⟨0, 0, 0⟩ =
      velocityStep (clampStep sqrtW2500
        (gravityStep (frictionStep (forceStep pC8 ⟨0, 0, 0⟩)))) ∧
    (applyPhysics sqrtW2500 pC8 ⟨0, 0, 0⟩).vel.x ^ 2 +
      (applyPhysics sqrtW2500 pC8 ⟨0, 0, 0⟩).vel.z ^ 2 ≤ CONFIG.maxSpeed ^ 2 ∧
    (applyPhysics sqrtW2500 pC8 ⟨0, 0, 0⟩).pos =
      pC8.pos.add (applyPhysics sqrtW2500 pC8 ⟨0, 0, 0⟩).vel :=
  applyPhysics_order_and_postcondition sqrtW2500 pC8 ⟨0, 0, 0⟩
    (by norm_num [preClampHSq, sqrtW2500, pC8, CONFIG])
    (by norm_num [preClampHSq, sqrtW2500, pC8, CONFIG])

/-- C2 counterexample (claim says every reset fully reinitializes position,
velocity, grounded and coyoteTimer): after a reset from a grounded state
with coyoteTimer 3, grounded and coyoteTimer still hold their pre-reset
values instead of the initial-state values false and 0. -/
theorem resetPlayer_counterexample :
    (resetPlayer ⟨⟨1, 2, 3⟩, ⟨4, 5, 6⟩, true, 3⟩).grounded ≠ false ∧
    (resetPlayer ⟨⟨1, 2, 3⟩, ⟨4, 5, 6⟩, true, 3⟩).coyoteTime ≠ 0 :=
  ⟨fun h => Bool.noConfusion h, fun h => Nat.noConfusion h⟩

/-- C2 (corrected): resetPlayer overwrites position with the spawn point and
velocity with zero (and clears the input state, outside PlayerState), but
leaves grounded and coyoteTimer at their pre-reset values. -/
theorem resetPlayer_overwrites_only_pos_vel (p : PlayerState) :
    resetPlayer p = ⟨⟨0, 150, 0⟩, ⟨0, 0, 0⟩, p.grounded, p.coyoteTime⟩ := rfl

/-- The merged bounds of a Standard block, rewritten through the key trace of
its flood fill. -/
theorem effectiveBounds_standard (b : BlockData) (bm : BlockMap)
    (h : b.type = BlockType.Standard) :
    effectiveBounds b bm =
      ((bfsCells bm b.gy (4 * bm.length + 5) [(b.gx, b.gy, b.gz)] []).filterMap
        (BlockMap.get bm)).foldl expandBounds (b.min, b.max) := by
  rw [effectiveBounds, if_pos h, Option.getD_some, mergeAllConnectedOnLayer,
    bfsMerge_eq_fold]

/-- The bounds-fold only ever grows the accumulated AABB. -/
theorem foldl_expandBounds_contains : ∀ (l : List BlockData) (acc : Vec3 × Vec3),
    (l.foldl expandBounds acc).1.x ≤ acc.1.x ∧
    (l.foldl expandBounds acc).1.y ≤ acc.1.y ∧
    (l.foldl expandBounds acc).1.z ≤ acc.1.z ∧
    acc.2.x ≤ (l.foldl expandBounds acc).2.x ∧
    acc.2.y ≤ (l.foldl expandBounds acc).2.y ∧
    acc.2.z ≤ (l.foldl expandBounds acc).2.z := by
  intro l
  induction l with
  | nil => intro acc; exact ⟨le_refl _, le_refl _, le_refl _, le_refl _, le_refl _, le_refl _⟩
  | cons b rest ih =>
    intro acc
    have h := ih (expandBounds acc b)
    simp only [List.foldl_cons]
    refine ⟨le_trans h.1 ?_, le_trans h.2.1 ?_, le_trans h.2.2.1 ?_,
      le_trans ?_ h.2.2.2.1, le_trans ?_ h.2.2.2.2.1, le_trans ?_ h.2.2.2.2.2⟩
    · exact min_le_left _ _
    · exact min_le_left _ _
    · exact min_le_left _ _
    · exact le_max_left _ _
    · exact le_max_left _ _
    · exact le_max_left _ _

/-- A successful pairwise merge contains the block's own box. -/
theorem mergeWith_contains (block nb : BlockData) (mm : Vec3 × Vec3)
    (h : mergeWith block nb = some mm) :
    mm.1.x ≤ block.min.x ∧ mm.1.y ≤ block.min.y ∧ mm.1.z ≤ block.min.z ∧
    block.max.x ≤ mm.2.x ∧ block.max.y ≤ mm.2.y ∧ block.max.z ≤ mm.2.z := by
  rw [mergeWith] at h
  by_cases h1 : nb.type ≠ BlockType.Standard
  · rw [if_pos h1] at h; exact absurd h (by simp)
  · rw [if_neg h1] at h
    by_cases h2 : nb.gy ≠ block.gy
    · rw [if_pos h2] at h; exact absurd h (by simp)
    · rw [if_neg h2] at h
      by_cases h3 : (nb.gz = block.gz ∧ (nb.gx - block.gx).natAbs = 1) ∨
          (nb.gx = block.gx ∧ (nb.gz - block.gz).natAbs = 1)
      · rw [if_pos h3] at h
        cases h
        exact ⟨min_le_left _ _, min_le_left _ _, min_le_left _ _,
          le_max_left _ _, le_max_left _ _, le_max_left _ _⟩
      · rw [if_neg h3] at h; exact absurd h (by simp)

/-- The first successful merge of the neighbor scan contains the block. -/
theorem firstMerge_contains (block : BlockData) :
    ∀ (l : List BlockData) (mm : Vec3 × Vec3), firstMerge block l = some mm →
    mm.1.x ≤ block.min.x ∧ mm.1.y ≤ block.min.y ∧ mm.1.z ≤ block.min.z ∧
    block.max.x ≤ mm.2.x ∧ block.max.y ≤ mm.2.y ∧ block.max.z ≤ mm.2.z := by
  intro l
  induction l with
  | nil => intro mm h; exact absurd h (by simp [firstMerge])
  | cons nb rest ih =>
    intro mm h
    rw [firstMerge] at h
    cases hm : mergeWith block nb with
    | some mm1 =>
      rw [hm] at h
      cases h
      exact mergeWith_contains block nb _ hm
    | none => rw [hm] at h; exact ih mm h

/-- The AABB the resolver tests a block against always contains the block's
own box. -/
theorem effectiveBounds_contains (b : BlockData) (bm : BlockMap) :
    (effectiveBounds b bm).1.x ≤ b.min.x ∧ (effectiveBounds b bm).1.y ≤ b.min.y ∧
    (effectiveBounds b bm).1.z ≤ b.min.z ∧ b.max.x ≤ (effectiveBounds b bm).2.x ∧
    b.max.y ≤ (effectiveBounds b bm).2.y ∧ b.max.z ≤ (effectiveBounds b bm).2.z := by
  by_cases ht : b.type = BlockType.Standard
  · rw [effectiveBounds_standard b bm ht]
    exact foldl_expandBounds_contains _ (b.min, b.max)
  · rw [effectiveBounds, if_neg ht]
    cases htm : tryMergeWithNeighbor b bm with
    | none =>
      simp only [htm, Option.getD_none]
      exact ⟨le_refl _, le_refl _, le_refl _, le_refl _, le_refl _, le_refl _⟩
    | some mm =>
      rw [tryMergeWithNeighbor, if_pos ht] at htm
      exact absurd htm (by simp)

/-- Clamping a coordinate already inside the interval is the identity. -/
theorem clampQ_of_mem (v lo hi : ℚ) (h1 : lo ≤ v) (h2 : v ≤ hi) :
    clampQ v lo hi = v := by
  rw [clampQ, min_eq_right h2, max_eq_right h1]

/-- C10: a block whose computed closest point lies within squared distance
1e-5 of the sphere center is passed through without push-out, velocity
change, or hazard callback — even a Spike block; and when the player center
lies inside the block's own AABB the computed squared distance is 0, so this
deep-overlap pass-through applies. -/
theorem deep_overlap_passthrough :
    (∀ (sqrtFn : ℚ → ℚ) (bm : BlockMap) (b : BlockData) (p : PlayerState) (g : Bool),
      distSqTo p.pos (effectiveBounds b bm).1 (effectiveBounds b bm).2 ≤ 1/100000 →
      processBlock sqrtFn bm b p g = ⟨p, g, false⟩) ∧
    (∀ (bm : BlockMap) (b : BlockData) (v : Vec3),
      b.min.x ≤ v.x → v.x ≤ b.max.x → b.min.y ≤ v.y → v.y ≤ b.max.y →
      b.min.z ≤ v.z → v.z ≤ b.max.z →
      distSqTo v (effectiveBounds b bm).1 (effectiveBounds b bm).2 = 0) := by
  constructor
  · intro sqrtFn bm b p g h
    exact processBlock_noCollision sqrtFn bm b p g (fun hc => absurd hc.2 (by linarith))
  · intro bm b v h1 h2 h3 h4 h5 h6
    have hc := effectiveBounds_contains b bm
    rw [distSqTo,
      clampQ_of_mem _ _ _ (le_trans hc.1 h1) (le_trans h2 hc.2.2.2.1),
      clampQ_of_mem _ _ _ (le_trans hc.2.1 h3) (le_trans h4 hc.2.2.2.2.1),
      clampQ_of_mem _ _ _ (le_trans hc.2.2.1 h5) (le_trans h6 hc.2.2.2.2.2)]
    ring

/-- Standard block at grid (0,0,0), as laid out by the generator. -/
def b000 : BlockData := gridBlock 0 0 0 BlockType.Standard 0

/-- Standard block at grid (1,0,0). -/
def b100 : BlockData := gridBlock 1 0 0 BlockType.Standard 1

/-- Standard block at grid (1,0,1). -/
def b101 : BlockData := gridBlock 1 0 1 BlockType.Standard 2

/-- Single-block map. -/
def map1 : BlockMap := [((0, 0, 0), b000)]

/-- The two adjoining Standard blocks of the seam scenario. -/
def seamMap : BlockMap := [((0, 0, 0), b000), ((1, 0, 0), b100)]

/-- An L-shaped connected layer: its merged bounding box also covers the
empty notch cell (0,0,1). -/
def mapL : BlockMap := [((0, 0, 0), b000), ((1, 0, 0), b100), ((1, 0, 1), b101)]

/-- Sqrt oracle exact at 25. -/
def sqrt25 : ℚ → ℚ := fun q => if q = 25 then 5 else 0

/-- Player hovering over the empty notch cell of the L-shaped layer, clear of
all three blocks but within reach of their merged bounding box. -/
def pNotch : PlayerState := ⟨⟨0, 25, 40⟩, ⟨0, -1, 0⟩, false, 0⟩

/-- Player far above the single block. -/
def pFar : PlayerState := ⟨⟨0, 200, 0⟩, ⟨0, 0, 0⟩, false, 0⟩

/-- C10 witness: the pass-through theorem applied with the player center at
the exact center of a block. -/
theorem deep_overlap_passthrough_witness :
    processBlock (fun _ => 0) map1 b000 ⟨⟨0, 0, 0⟩, ⟨0, 0, 0⟩, false, 0⟩ false =
      ⟨⟨⟨0, 0, 0⟩, ⟨0, 0, 0⟩, false, 0⟩, false, false⟩ ∧
    distSqTo ⟨0, 0, 0⟩ (effectiveBounds b000 map1).1 (effectiveBounds b000 map1).2 = 0 := by
  have h0 := deep_overlap_passthrough.2 map1 b000 ⟨0, 0, 0⟩
    (by norm_num [b000, gridBlock]) (by norm_num [b000, gridBlock])
    (by norm_num [b000, gridBlock]) (by norm_num [b000, gridBlock])
    (by norm_num [b000, gridBlock]) (by norm_num [b000, gridBlock])
  exact ⟨deep_overlap_passthrough.1 (fun _ => 0) map1 b000 _ false
    (by rw [h0]; norm_num), h0⟩

/-- Merged bounds of each L-shape block: the whole connected layer. -/
theorem effL_b000 : effectiveBounds b000 mapL =
    (⟨-20, -20, -20⟩, ⟨60, 20, 60⟩) := by
  rw [effectiveBounds_standard b000 mapL rfl,
    show bfsCells mapL b000.gy (4 * mapL.length + 5)
      [(b000.gx, b000.gy, b000.gz)] [] = [(0, 0, 0), (1, 0, 0), (1, 0, 1)]
      from by decide]
  simp only [List.filterMap_cons, List.filterMap_nil,
    show BlockMap.get mapL (0, 0, 0) = some b000 from rfl,
    show BlockMap.get mapL (1, 0, 0) = some b100 from rfl,
    show BlockMap.get mapL (1, 0, 1) = some b101 from rfl,
    List.foldl_cons, List.foldl_nil]
  norm_num [expandBounds, b000, b100, b101, gridBlock]

theorem effL_b100 : effectiveBounds b100 mapL =
    (⟨-20, -20, -20⟩, ⟨60, 20, 60⟩) := by
  rw [effectiveBounds_standard b100 mapL rfl,
    show bfsCells mapL b100.gy (4 * mapL.length + 5)
      [(b100.gx, b100.gy, b100.gz)] [] = [(1, 0, 0), (0, 0, 0), (1, 0, 1)]
      from by decide]
  simp only [List.filterMap_cons, List.filterMap_nil,
    show BlockMap.get mapL (0, 0, 0) = some b000 from rfl,
    show BlockMap.get mapL (1, 0, 0) = some b100 from rfl,
    show BlockMap.get mapL (1, 0, 1) = some b101 from rfl,
    List.foldl_cons, List.foldl_nil]
  norm_num [expandBounds, b000, b100, b101, gridBlock]

theorem effL_b101 : effectiveBounds b101 mapL =
    (⟨-20, -20, -20⟩, ⟨60, 20, 60⟩) := by
  rw [effectiveBounds_standard b101 mapL rfl,
    show bfsCells mapL b101.gy (4 * mapL.length + 5)
      [(b101.gx, b101.gy, b101.gz)] [] = [(1, 0, 1), (1, 0, 0), (0, 0, 0)]
      from by decide]
  simp only [List.filterMap_cons, List.filterMap_nil,
    show BlockMap.get mapL (0, 0, 0) = some b000 from rfl,
    show BlockMap.get mapL (1, 0, 0) = some b100 from rfl,
    show BlockMap.get mapL (1, 0, 1) = some b101 from rfl,
    List.foldl_cons, List.foldl_nil]
  norm_num [expandBounds, b000, b100, b101, gridBlock]

/-- C4 counterexample (claim says: clear of every block implies PlayerState
unchanged): over the notch of an L-shaped layer the sphere is strictly
farther than playerRadius from every block's own closest point, yet one
resolveCollisions call moves the player, rewrites its velocity, grounds it
and reloads the coyote timer, because the resolver tests the merged
bounding box of the connected layer, and because the no-contact branch of
the post-loop state machine always touches grounded/coyoteTimer anyway. -/
theorem noop_when_clear_counterexample :
    (∀ b ∈ [b000, b100, b101],
      CONFIG.playerRadius * CONFIG.playerRadius < distSqTo pNotch.pos b.min b.max) ∧
    (resolveCollisions sqrt25 pNotch [b000, b100, b101] mapL).1.pos ≠ pNotch.pos ∧
    (resolveCollisions sqrt25 pNotch [b000, b100, b101] mapL).1.grounded ≠
      pNotch.grounded ∧
    (resolveCollisions sqrt25 pNotch [b000, b100, b101] mapL).1.coyoteTime ≠
      pNotch.coyoteTime := by
  have h1 : processBlock sqrt25 mapL b000 pNotch false =
      ⟨⟨⟨0, 40, 40⟩, ⟨0, 0, 0⟩, false, 0⟩, true, false⟩ := by
    simp only [processBlock, resolveContact, contactNormal, effL_b000]
    norm_num [sqrt25, broadphaseSkip, distSqTo, closestPoint, clampQ, Vec3.add,
      Vec3.smul, Vec3.dot, signZ, pNotch, b000, gridBlock, CONFIG, PHYSICS,
      standard_ne_spike]
  have h2 : processBlock sqrt25 mapL b100 ⟨⟨0, 40, 40⟩, ⟨0, 0, 0⟩, false, 0⟩ true =
      ⟨⟨⟨0, 40, 40⟩, ⟨0, 0, 0⟩, false, 0⟩, true, false⟩ :=
    processBlock_noCollision _ _ _ _ _ (by
      rw [effL_b100]
      norm_num [distSqTo, clampQ, CONFIG])
  have h3 : processBlock sqrt25 mapL b101 ⟨⟨0, 40, 40⟩, ⟨0, 0, 0⟩, false, 0⟩ true =
      ⟨⟨⟨0, 40, 40⟩, ⟨0, 0, 0⟩, false, 0⟩, true, false⟩ :=
    processBlock_noCollision _ _ _ _ _ (by
      rw [effL_b101]
      norm_num [distSqTo, clampQ, CONFIG])
  have hres : resolveCollisions sqrt25 pNotch [b000, b100, b101] mapL =
      (⟨⟨0, 40, 40⟩, ⟨0, 0, 0⟩, true, PHYSICS.coyoteFrames⟩, 0) := by
    rw [resolveCollisions]
    rw [show resolveLoop sqrt25 mapL [b000, b100, b101] pNotch false =
        (⟨⟨0, 40, 40⟩, ⟨0, 0, 0⟩, false, 0⟩, true, 0) from by
      rw [resolveLoop, h1]
      simp only [if_neg (by simp : ¬(⟨⟨⟨0, 40, 40⟩, ⟨0, 0, 0⟩, false, 0⟩, true,
        false⟩ : BlockEffect).hazard = true)]
      rw [resolveLoop, h2]
      simp only [if_neg (by simp : ¬(⟨⟨⟨0, 40, 40⟩, ⟨0, 0, 0⟩, false, 0⟩, true,
        false⟩ : BlockEffect).hazard = true)]
      rw [resolveLoop, h3]
      simp only [if_neg (by simp : ¬(⟨⟨⟨0, 40, 40⟩, ⟨0, 0, 0⟩, false, 0⟩, true,
        false⟩ : BlockEffect).hazard = true)]
      rfl]
    rfl
  refine ⟨?_, ?_, ?_, ?_⟩
  · intro b hb
    simp only [List.mem_cons, List.not_mem_nil, or_false] at hb
    rcases hb with rfl | rfl | rfl
    · norm_num [distSqTo, clampQ, b000, gridBlock, pNotch, CONFIG]
    · norm_num [distSqTo, clampQ, b100, gridBlock, pNotch, CONFIG]
    · norm_num [distSqTo, clampQ, b101, gridBlock, pNotch, CONFIG]
  · rw [hres]
    simp only [pNotch]
    intro h
    have := congrArg Vec3.y h
    norm_num at this
  · rw [hres]; simp [pNotch]
  · rw [hres]; simp [pNotch, PHYSICS]

/-- When every block is clear of the (merged) collision test, the loop does
nothing. -/
theorem resolveLoop_clear (sqrtFn : ℚ → ℚ) (bm : BlockMap) :
    ∀ (blocks : List BlockData) (p : PlayerState) (g : Bool),
      (∀ b ∈ blocks, CONFIG.playerRadius * CONFIG.playerRadius ≤
        distSqTo p.pos (effectiveBounds b bm).1 (effectiveBounds b bm).2) →
      resolveLoop sqrtFn bm blocks p g = (p, g, 0) := by
  intro blocks
  induction blocks with
  | nil => intro p g h; rfl
  | cons b rest ih =>
    intro p g h
    rw [resolveLoop,
      processBlock_noCollision sqrtFn bm b p g
        (fun hc => absurd hc.1 (not_lt.mpr (h b (by simp))))]
    simp only [if_neg (by simp : ¬(⟨p, g, false⟩ : BlockEffect).hazard = true)]
    exact ih p g (fun b2 hb2 => h b2 (by simp [hb2]))

/-- C4 (corrected): when the sphere is farther than playerRadius from every
block's code-computed (merged) AABB, resolveCollisions leaves position and
velocity unchanged and fires no hazard, while grounded and coyoteTimer
undergo exactly the no-contact state-machine update (decrement the timer if
positive, else drop grounded); in particular the whole PlayerState is
unchanged precisely in the already-airborne case coyoteTimer = 0,
grounded = false. -/
theorem noop_when_clear_amended (sqrtFn : ℚ → ℚ) (p : PlayerState)
    (blocks : List BlockData) (bm : BlockMap)
    (h : ∀ b ∈ blocks, CONFIG.playerRadius * CONFIG.playerRadius ≤
      distSqTo p.pos (effectiveBounds b bm).1 (effectiveBounds b bm).2) :
    (resolveCollisions sqrtFn p blocks bm).1.pos = p.pos ∧
    (resolveCollisions sqrtFn p blocks bm).1.vel = p.vel ∧
    (resolveCollisions sqrtFn p blocks bm).2 = 0 ∧
    (resolveCollisions sqrtFn p blocks bm).1.coyoteTime = p.coyoteTime - 1 ∧
    (resolveCollisions sqrtFn p blocks bm).1.grounded =
      (if 0 < p.coyoteTime then p.grounded else false) ∧
    (p.coyoteTime = 0 → p.grounded = false →
      (resolveCollisions sqrtFn p blocks bm).1 = p) := by
  have hl := resolveLoop_clear sqrtFn bm blocks p false h
  rw [resolveCollisions, hl]
  by_cases hc : 0 < p.coyoteTime
  · simp only [if_pos hc]
    refine ⟨rfl, rfl, rfl, rfl, rfl, ?_⟩
    intro h0; exact absurd hc (by omega)
  · simp only [if_neg hc]
    have hc0 : p.coyoteTime = 0 := by omega
    refine ⟨rfl, rfl, rfl, by simp [hc0], rfl, ?_⟩
    intro _ hg
    cases p with
    | mk pos vel grounded coyote =>
      simp only at hg ⊢
      simp [hg]

/-- C4 witness for the corrected claim: a player far above a lone block. -/
theorem noop_when_clear_amended_witness :
    (resolveCollisions sqrt25 pFar [b000] map1).1.pos = pFar.pos ∧
    (resolveCollisions sqrt25 pFar [b000] map1).1.vel = pFar.vel ∧
    (resolveCollisions sqrt25 pFar [b000] map1).2 = 0 ∧
    (resolveCollisions sqrt25 pFar [b000] map1).1.coyoteTime = pFar.coyoteTime - 1 ∧
    (resolveCollisions sqrt25 pFar [b000] map1).1.grounded =
      (if 0 < pFar.coyoteTime then pFar.grounded else false) ∧
    (pFar.coyoteTime = 0 → pFar.grounded = false →
      (resolveCollisions sqrt25 pFar [b000] map1).1 = pFar) :=
  noop_when_clear_amended sqrt25 pFar [b000] map1 (by
    intro b hb
    simp only [List.mem_cons, List.not_mem_nil, or_false] at hb
    subst hb
    rw [show effectiveBounds b000 map1 = (b000.min, b000.max) from by
      rw [effectiveBounds_standard b000 map1 rfl,
        show bfsCells map1 b000.gy (4 * map1.length + 5)
          [(b000.gx, b000.gy, b000.gz)] [] = [(0, 0, 0)] from by decide]
      simp only [List.filterMap_cons, List.filterMap_nil,
        show BlockMap.get map1 (0, 0, 0) = some b000 from rfl,
        List.foldl_cons, List.foldl_nil]
      norm_num [expandBounds]]
    norm_num [distSqTo, clampQ, b000, gridBlock, pFar, CONFIG])

/-- k consecutive resolver calls (as counted by the coyote-window property). -/
def resolveIter (sqrtFn : ℚ → ℚ) (blocks : List BlockData) (bm : BlockMap) :
    ℕ → PlayerState → PlayerState
  | 0, p => p
  | k + 1, p =>
    resolveIter sqrtFn blocks bm k (resolveCollisions sqrtFn p blocks bm).1

/-- A freshly grounded player (coyoteTimer fully loaded). -/
def pGrounded : PlayerState := ⟨⟨0, 0, 0⟩, ⟨0, 0, 0⟩, true, PHYSICS.coyoteFrames⟩

/-- C5 counterexample (claim says grounded becomes false after exactly
coyoteFrames = 5 no-contact resolver calls): after exactly 5 no-contact
calls the player is still grounded (with the timer exhausted); the flag only
drops on call 6. -/
theorem coyote_grace_counterexample :
    (resolveIter (fun _ => 0) [] [] PHYSICS.coyoteFrames pGrounded).grounded = true ∧
    (resolveIter (fun _ => 0) [] [] PHYSICS.coyoteFrames pGrounded).coyoteTime = 0 ∧
    (resolveIter (fun _ => 0) [] [] (PHYSICS.coyoteFrames + 1) pGrounded).grounded =
      false :=
  ⟨rfl, rfl, rfl⟩

/-- State evolution under repeated clear (no-contact) resolver calls. -/
theorem resolveIter_clear_state (sqrtFn : ℚ → ℚ) (blocks : List BlockData)
    (bm : BlockMap) :
    ∀ (k : ℕ) (p : PlayerState),
      (∀ b ∈ blocks, CONFIG.playerRadius * CONFIG.playerRadius ≤
        distSqTo p.pos (effectiveBounds b bm).1 (effectiveBounds b bm).2) →
      (resolveIter sqrtFn blocks bm k p).pos = p.pos ∧
      (resolveIter sqrtFn blocks bm k p).vel = p.vel ∧
      (resolveIter sqrtFn blocks bm k p).coyoteTime = p.coyoteTime - k ∧
      (resolveIter sqrtFn blocks bm k p).grounded =
        (if k ≤ p.coyoteTime then p.grounded else false) := by
  intro k
  induction k with
  | zero =>
    intro p hp
    exact ⟨rfl, rfl, rfl, by rw [if_pos (Nat.zero_le _)]; rfl⟩
  | succ n ih =>
    intro p hp
    have hstep := noop_when_clear_amended sqrtFn p blocks bm hp
    set q := (resolveCollisions sqrtFn p blocks bm).1 with hq
    have hrec : resolveIter sqrtFn blocks bm (n + 1) p =
        resolveIter sqrtFn blocks bm n q := rfl
    have hq2 := ih q (by
      intro b hb
      rw [hstep.1]
      exact hp b hb)
    rw [hrec]
    refine ⟨by rw [hq2.1, hstep.1], by rw [hq2.2.1, hstep.2.1], ?_, ?_⟩
    · rw [hq2.2.2.1, hstep.2.2.2.1]
      omega
    · rw [hq2.2.2.2, hstep.2.2.2.1, hstep.2.2.2.2.1]
      by_cases hc : 0 < p.coyoteTime
      · simp only [if_pos hc]
        by_cases hk : n ≤ p.coyoteTime - 1
        · rw [if_pos hk, if_pos (by omega)]
        · rw [if_neg hk, if_neg (by omega)]
      · simp only [if_neg hc, ite_self]
        rw [if_neg (show ¬(n + 1 ≤ p.coyoteTime) by omega)]

/-- C5 (corrected): starting grounded with coyoteTimer = coyoteFrames and no
further ground contact, the player stays grounded through the first
coyoteFrames resolver calls while the timer counts down to 0, and jump
eligibility (grounded || coyoteTimer > 0) holds after each of them; grounded
only becomes false on call coyoteFrames + 1, at which point jump eligibility
is also lost. -/
theorem coyote_grace_amended (sqrtFn : ℚ → ℚ) (blocks : List BlockData)
    (bm : BlockMap) (p : PlayerState)
    (hg : p.grounded = true) (hct : p.coyoteTime = PHYSICS.coyoteFrames)
    (h : ∀ b ∈ blocks, CONFIG.playerRadius * CONFIG.playerRadius ≤
      distSqTo p.pos (effectiveBounds b bm).1 (effectiveBounds b bm).2) :
    (∀ k ≤ PHYSICS.coyoteFrames,
      (resolveIter sqrtFn blocks bm k p).grounded = true ∧
      (resolveIter sqrtFn blocks bm k p).coyoteTime = PHYSICS.coyoteFrames - k ∧
      jumpEligible (resolveIter sqrtFn blocks bm k p)) ∧
    (resolveIter sqrtFn blocks bm (PHYSICS.coyoteFrames + 1) p).grounded = false ∧
    ¬jumpEligible (resolveIter sqrtFn blocks bm (PHYSICS.coyoteFrames + 1) p) := by
  constructor
  · intro k hk
    have hs := resolveIter_clear_state sqrtFn blocks bm k p h
    have hgk : (resolveIter sqrtFn blocks bm k p).grounded = true := by
      rw [hs.2.2.2, hct, if_pos hk, hg]
    exact ⟨hgk, by rw [hs.2.2.1, hct], Or.inl hgk⟩
  · have hs := resolveIter_clear_state sqrtFn blocks bm (PHYSICS.coyoteFrames + 1) p h
    have hgk : (resolveIter sqrtFn blocks bm (PHYSICS.coyoteFrames + 1) p).grounded =
        false := by
      rw [hs.2.2.2, hct, if_neg (by omega)]
    refine ⟨hgk, ?_⟩
    intro hel
    rcases hel with he | he
    · rw [hgk] at he; exact Bool.noConfusion he
    · rw [hs.2.2.1, hct] at he; omega

/-- C5 witness: the corrected coyote window at the concrete grounded state,
over an empty block list, checked at the boundary call count. -/
theorem coyote_grace_amended_witness :
    ((resolveIter (fun _ => 0) [] [] PHYSICS.coyoteFrames pGrounded).grounded = true ∧
      (resolveIter (fun _ => 0) [] [] PHYSICS.coyoteFrames pGrounded).coyoteTime =
        PHYSICS.coyoteFrames - PHYSICS.coyoteFrames ∧
      jumpEligible (resolveIter (fun _ => 0) [] [] PHYSICS.coyoteFrames pGrounded)) ∧
    (resolveIter (fun _ => 0) [] [] (PHYSICS.coyoteFrames + 1) pGrounded).grounded =
      false ∧
    ¬jumpEligible (resolveIter (fun _ => 0) [] [] (PHYSICS.coyoteFrames + 1) pGrounded) := by
  have h := coyote_grace_amended (fun _ => 0) [] [] pGrounded rfl rfl
    (by intro b hb; exact absurd hb (List.not_mem_nil b))
  exact ⟨h.1 PHYSICS.coyoteFrames (le_refl _), h.2⟩

/-- A loop iteration that fires the hazard callback leaves the player and
grounded flag exactly as they were when it was reached. -/
theorem processBlock_hazard (sqrtFn : ℚ → ℚ) (bm : BlockMap) (b : BlockData)
    (p : PlayerState) (g : Bool)
    (h : (processBlock sqrtFn bm b p g).hazard = true) :
    processBlock sqrtFn bm b p g = ⟨p, g, true⟩ := by
  rw [processBlock] at h ⊢
  by_cases h1 : broadphaseSkip b p.pos
  · rw [if_pos h1] at h; exact absurd h (by simp)
  · rw [if_neg h1] at h ⊢
    by_cases h2 : distSqTo p.pos (effectiveBounds b bm).1 (effectiveBounds b bm).2 <
        CONFIG.playerRadius * CONFIG.playerRadius ∧
        1 / 100000 < distSqTo p.pos (effectiveBounds b bm).1 (effectiveBounds b bm).2
    · rw [if_pos h2] at h ⊢
      by_cases h3 : b.type = BlockType.Spike
      · rw [if_pos h3]
      · rw [if_neg h3] at h; exact absurd h (by simp)
    · rw [if_neg h2] at h; exact absurd h (by simp)

/-- Splitting the block loop at a list boundary: if the first segment fired
the hazard the loop stopped there, otherwise it continues into the second
segment from the reached state. -/
theorem resolveLoop_append (sqrtFn : ℚ → ℚ) (bm : BlockMap)
    (l1 l2 : List BlockData) : ∀ (p : PlayerState) (g : Bool),
    resolveLoop sqrtFn bm (l1 ++ l2) p g =
      (if (resolveLoop sqrtFn bm l1 p g).2.2 ≠ 0 then resolveLoop sqrtFn bm l1 p g
       else resolveLoop sqrtFn bm l2 (resolveLoop sqrtFn bm l1 p g).1
         (resolveLoop sqrtFn bm l1 p g).2.1) := by
  induction l1 with
  | nil => intro p g; simp [resolveLoop]
  | cons b t ih =>
    intro p g
    rw [List.cons_append, resolveLoop, resolveLoop]
    by_cases he : (processBlock sqrtFn bm b p g).hazard = true
    · rw [if_pos he, if_pos he]
      simp
    · rw [if_neg he, if_neg he]
      exact ih _ _

/-- C3: if no block before `b` fires the hazard and the collision test
passes for the Spike block `b` at the state reached after the earlier
blocks, then resolveCollisions invokes onReset exactly once, returns the
player exactly as it was at that point (no state-machine update), and the
blocks after `b` play no role in the result. -/
theorem hazard_terminal (sqrtFn : ℚ → ℚ) (bm : BlockMap)
    (pre post : List BlockData) (b : BlockData) (p : PlayerState)
    (hpre : (resolveLoop sqrtFn bm pre p false).2.2 = 0)
    (hb : (processBlock sqrtFn bm b (resolveLoop sqrtFn bm pre p false).1
        (resolveLoop sqrtFn bm pre p false).2.1).hazard = true) :
    resolveCollisions sqrtFn p (pre ++ b :: post) bm =
      ((resolveLoop sqrtFn bm pre p false).1, 1) := by
  have hsplit := resolveLoop_append sqrtFn bm pre (b :: post) p false
  rw [if_neg (by rw [hpre]; simp)] at hsplit
  have hpb := processBlock_hazard sqrtFn bm b _ _ hb
  have hloop : resolveLoop sqrtFn bm (b :: post)
      (resolveLoop sqrtFn bm pre p false).1
      (resolveLoop sqrtFn bm pre p false).2.1 =
      ((resolveLoop sqrtFn bm pre p false).1,
        (resolveLoop sqrtFn bm pre p false).2.1, 1) := by
    rw [resolveLoop, hpb]
    simp
  rw [hloop] at hsplit
  rw [resolveCollisions, hsplit]
  simp

/-- Spike (hazard) block at grid (0,3,0). -/
def spk030 : BlockData := gridBlock 0 3 0 BlockType.Spike 3

/-- Standard block at grid (1,3,0), overlapping the witness player: it would
resolve if it were ever processed after the hazard. -/
def b130 : BlockData := gridBlock 1 3 0 BlockType.Standard 4

/-- Map holding the spike and its standard neighbor. -/
def mapS : BlockMap := [((0, 3, 0), spk030), ((1, 3, 0), b130)]

/-- Player overlapping both the spike at (0,3,0) and the standard block at
(1,3,0). -/
def pSpike : PlayerState := ⟨⟨10, 145, 0⟩, ⟨0, -1, 0⟩, false, 0⟩

/-- C3 witness: the hazard fires exactly once, the overlapping Standard
block listed after the spike is never resolved, and the call returns the
pre-hazard player untouched. -/
theorem hazard_terminal_witness :
    resolveCollisions (fun _ => 0) pSpike [spk030, b130] mapS = (pSpike, 1) := by
  have h := hazard_terminal (fun _ => 0) mapS [] [b130] spk030 pSpike rfl (by
    rw [show (resolveLoop (fun _ => 0) mapS [] pSpike false).1 = pSpike from rfl,
      show (resolveLoop (fun _ => 0) mapS [] pSpike false).2.1 = false from rfl,
      processBlock,
      if_neg (show ¬broadphaseSkip spk030 pSpike.pos from by
        norm_num [broadphaseSkip, spk030, gridBlock, pSpike, PHYSICS]),
      show effectiveBounds spk030 mapS = (spk030.min, spk030.max) from rfl]
    rw [if_pos (show distSqTo pSpike.pos spk030.min spk030.max <
          CONFIG.playerRadius * CONFIG.playerRadius ∧
          1 / 100000 < distSqTo pSpike.pos spk030.min spk030.max from by
        norm_num [distSqTo, clampQ, spk030, gridBlock, pSpike, CONFIG]),
      if_pos (show spk030.type = BlockType.Spike from rfl)])
  exact h

attribute [ext] Vec3 PlayerState

/-- Merged bounds over the two-block seam platform, from (0,0,0). -/
theorem effSeam_b000 : effectiveBounds b000 seamMap =
    (⟨-20, -20, -20⟩, ⟨60, 20, 20⟩) := by
  rw [effectiveBounds_standard b000 seamMap rfl,
    show bfsCells seamMap b000.gy (4 * seamMap.length + 5)
      [(b000.gx, b000.gy, b000.gz)] [] = [(0, 0, 0), (1, 0, 0)] from by decide]
  simp only [List.filterMap_cons, List.filterMap_nil,
    show BlockMap.get seamMap (0, 0, 0) = some b000 from rfl,
    show BlockMap.get seamMap (1, 0, 0) = some b100 from rfl,
    List.foldl_cons, List.foldl_nil]
  norm_num [expandBounds, b000, b100, gridBlock]

/-- Merged bounds over the two-block seam platform, from (1,0,0). -/
theorem effSeam_b100 : effectiveBounds b100 seamMap =
    (⟨-20, -20, -20⟩, ⟨60, 20, 20⟩) := by
  rw [effectiveBounds_standard b100 seamMap rfl,
    show bfsCells seamMap b100.gy (4 * seamMap.length + 5)
      [(b100.gx, b100.gy, b100.gz)] [] = [(1, 0, 0), (0, 0, 0)] from by decide]
  simp only [List.filterMap_cons, List.filterMap_nil,
    show BlockMap.get seamMap (0, 0, 0) = some b000 from rfl,
    show BlockMap.get seamMap (1, 0, 0) = some b100 from rfl,
    List.foldl_cons, List.foldl_nil]
  norm_num [expandBounds, b000, b100, gridBlock]

/-- The squared distance to an AABB from a point straight above its top
face. -/
theorem distSqTo_top_face (pos mn mx : Vec3)
    (hx1 : mn.x ≤ pos.x) (hx2 : pos.x ≤ mx.x)
    (hz1 : mn.z ≤ pos.z) (hz2 : pos.z ≤ mx.z)
    (hymn : mn.y ≤ mx.y) (hy : mx.y ≤ pos.y) :
    distSqTo pos mn mx = (pos.y - mx.y) * (pos.y - mx.y) := by
  have hcy : clampQ pos.y mn.y mx.y = mx.y := by
    rw [clampQ, min_eq_left hy, max_eq_right hymn]
  rw [distSqTo, clampQ_of_mem _ _ _ hx1 hx2, clampQ_of_mem _ _ _ hz1 hz2, hcy]
  ring

/-- Landing flat on the top face of the (merged) AABB: the contact normal is
(0,1,0), so the seam tests fail, the player is pushed up onto the surface,
the downward velocity is cancelled and the contact grounds the player. -/
theorem resolveContact_top_face (sqrtFn : ℚ → ℚ) (bm : BlockMap)
    (b : BlockData) (p : PlayerState) (g : Bool) (mn mx : Vec3)
    (heff : effectiveBounds b bm = (mn, mx))
    (hx1 : mn.x ≤ p.pos.x) (hx2 : p.pos.x ≤ mx.x)
    (hz1 : mn.z ≤ p.pos.z) (hz2 : p.pos.z ≤ mx.z)
    (hymn : mn.y ≤ mx.y) (hy : mx.y < p.pos.y)
    (hs : sqrtFn ((p.pos.y - mx.y) * (p.pos.y - mx.y)) = p.pos.y - mx.y)
    (hvy : p.vel.y < 0) :
    resolveContact sqrtFn bm b p g =
      ({ p with
          pos := ⟨p.pos.x, p.pos.y + (CONFIG.playerRadius - (p.pos.y - mx.y)),
            p.pos.z⟩,
          vel := ⟨p.vel.x, p.vel.y + -p.vel.y, p.vel.z⟩ }, true) := by
  have hcy : clampQ p.pos.y mn.y mx.y = mx.y := by
    rw [clampQ, min_eq_left (le_of_lt hy), max_eq_right hymn]
  have hd : p.pos.y - mx.y ≠ 0 := ne_of_gt (by linarith)
  have hnormal : contactNormal sqrtFn bm b p.pos = ⟨0, 1, 0⟩ := by
    rw [contactNormal, heff]
    simp only [closestPoint, clampQ_of_mem _ _ _ hx1 hx2,
      clampQ_of_mem _ _ _ hz1 hz2, hcy, sub_self]
    rw [show (0 * 0 + (p.pos.y - mx.y) * (p.pos.y - mx.y) + 0 * 0 : ℚ) =
      (p.pos.y - mx.y) * (p.pos.y - mx.y) from by ring, hs, zero_div,
      div_self hd]
  rw [resolveContact, heff]
  simp only [closestPoint, clampQ_of_mem _ _ _ hx1 hx2,
    clampQ_of_mem _ _ _ hz1 hz2, hcy, sub_self, hnormal]
  rw [show (0 * 0 + (p.pos.y - mx.y) * (p.pos.y - mx.y) + 0 * 0 : ℚ) =
    (p.pos.y - mx.y) * (p.pos.y - mx.y) from by ring, hs]
  rw [if_neg (show ¬((p.vel.y < 0 ∧ |(⟨0, 1, 0⟩ : Vec3).y| < 7/20 ∧
      (1/2 < |(⟨0, 1, 0⟩ : Vec3).x| ∨ 1/2 < |(⟨0, 1, 0⟩ : Vec3).z|)) ∨
      ((if |(⟨0, 1, 0⟩ : Vec3).y| < 1/2 then
        (if |(⟨0, 1, 0⟩ : Vec3).z| < |(⟨0, 1, 0⟩ : Vec3).x| then
          BlockMap.has bm (b.gx + signZ (⟨0, 1, 0⟩ : Vec3).x, b.gy, b.gz)
        else BlockMap.has bm (b.gx, b.gy, b.gz + signZ (⟨0, 1, 0⟩ : Vec3).z))
        else false) = true))
    from by norm_num)]
  rw [show p.vel.dot ⟨0, 1, 0⟩ = p.vel.y from by
    rw [Vec3.dot]; ring]
  rw [if_pos hvy, if_pos (show (7:ℚ)/10 < (⟨0, 1, 0⟩ : Vec3).y by norm_num)]
  refine Prod.ext ?_ rfl
  ext <;> simp [Vec3.add, Vec3.smul] <;> ring

/-- A colliding non-Spike block is handled by resolveContact. -/
theorem processBlock_resolves (sqrtFn : ℚ → ℚ) (bm : BlockMap) (b : BlockData)
    (p : PlayerState) (g : Bool)
    (hbp : ¬broadphaseSkip b p.pos)
    (hcol : distSqTo p.pos (effectiveBounds b bm).1 (effectiveBounds b bm).2 <
        CONFIG.playerRadius * CONFIG.playerRadius ∧
      1 / 100000 < distSqTo p.pos (effectiveBounds b bm).1 (effectiveBounds b bm).2)
    (hsp : ¬(b.type = BlockType.Spike)) :
    processBlock sqrtFn bm b p g =
      ⟨(resolveContact sqrtFn bm b p g).1, (resolveContact sqrtFn bm b p g).2,
        false⟩ := by
  rw [processBlock, if_neg hbp, if_pos hcol, if_neg hsp]

theorem seam_landing_scenario (sqrtFn : ℚ → ℚ) (y0 v : ℚ)
    (hv : 0 < v)
    (hlo : 20 + 1/100 ≤ y0 - v - 13/20)
    (hhi : y0 - v - 13/20 < 40)
    (hs0 : sqrtFn 0 = 0)
    (hs : sqrtFn ((y0 - v - 13/20 - 20) * (y0 - v - 13/20 - 20)) =
      y0 - v - 13/20 - 20) :
    fixedUpdatePhysics sqrtFn [b000, b100] seamMap ⟨0, 0, 0⟩ false
        ⟨⟨20, y0, 0⟩, ⟨0, -v, 0⟩, false, 0⟩ =
      ⟨⟨20, 40, 0⟩, ⟨0, 0, 0⟩, true, 2⟩ := by
  -- abbreviate the post-integration height
  have happly : applyPhysics sqrtFn ⟨⟨20, y0, 0⟩, ⟨0, -v, 0⟩, false, 0⟩ ⟨0, 0, 0⟩ =
      ⟨⟨20, y0 - v - 13/20, 0⟩, ⟨0, -v - 13/20, 0⟩, false, 0⟩ := by
    rw [applyPhysics_steps]
    norm_num [forceStep, frictionStep, gravityStep, clampStep, velocityStep,
      Vec3.add, CONFIG, hs0]
    ring
  -- the player after integration
  set p1 : PlayerState := ⟨⟨20, y0 - v - 13/20, 0⟩, ⟨0, -v - 13/20, 0⟩, false, 0⟩
    with hp1
  have hbp : ¬broadphaseSkip b000 p1.pos := by
    rw [broadphaseSkip]
    push_neg
    norm_num [b000, gridBlock, PHYSICS, hp1]
    rw [abs_of_nonpos (by linarith)]
    linarith
  have hdist : distSqTo p1.pos (effectiveBounds b000 seamMap).1
      (effectiveBounds b000 seamMap).2 =
      (y0 - v - 13/20 - 20) * (y0 - v - 13/20 - 20) := by
    rw [effSeam_b000]
    rw [distSqTo_top_face p1.pos ⟨-20, -20, -20⟩ ⟨60, 20, 20⟩
      (by norm_num [hp1]) (by norm_num [hp1]) (by norm_num [hp1])
      (by norm_num [hp1]) (by norm_num) (by show (20:ℚ) ≤ _; norm_num [hp1]; linarith)]
  have hcol : distSqTo p1.pos (effectiveBounds b000 seamMap).1
        (effectiveBounds b000 seamMap).2 <
      CONFIG.playerRadius * CONFIG.playerRadius ∧
      1 / 100000 < distSqTo p1.pos (effectiveBounds b000 seamMap).1
        (effectiveBounds b000 seamMap).2 := by
    rw [hdist]
    constructor
    · show _ < (20:ℚ) * 20
      nlinarith
    · nlinarith
  have hrc := resolveContact_top_face sqrtFn seamMap b000 p1 false
    ⟨-20, -20, -20⟩ ⟨60, 20, 20⟩ effSeam_b000
    (by norm_num [hp1]) (by norm_num [hp1]) (by norm_num [hp1])
    (by norm_num [hp1]) (by norm_num)
    (by show (20:ℚ) < _; norm_num [hp1]; linarith)
    (by show sqrtFn _ = _; norm_num [hp1]; exact hs)
    (by norm_num [hp1]; linarith)
  have hrc2 : resolveContact sqrtFn seamMap b000 p1 false =
      (⟨⟨20, 40, 0⟩, ⟨0, 0, 0⟩, false, 0⟩, true) := by
    rw [hrc]
    refine Prod.ext ?_ rfl
    ext <;> norm_num [hp1, CONFIG] <;> ring_nf
  have hb1 : processBlock sqrtFn seamMap b000 p1 false =
      ⟨⟨⟨20, 40, 0⟩, ⟨0, 0, 0⟩, false, 0⟩, true, false⟩ := by
    rw [processBlock_resolves sqrtFn seamMap b000 p1 false hbp hcol
      (by norm_num [b000, gridBlock, standard_ne_spike]), hrc2]
  have hb2 : processBlock sqrtFn seamMap b100
      ⟨⟨20, 40, 0⟩, ⟨0, 0, 0⟩, false, 0⟩ true =
      ⟨⟨⟨20, 40, 0⟩, ⟨0, 0, 0⟩, false, 0⟩, true, false⟩ :=
    processBlock_noCollision _ _ _ _ _ (by
      rw [effSeam_b100]
      norm_num [distSqTo, clampQ, CONFIG])
  have hloop : resolveLoop sqrtFn seamMap [b000, b100] p1 false =
      (⟨⟨20, 40, 0⟩, ⟨0, 0, 0⟩, false, 0⟩, true, 0) := by
    rw [resolveLoop, hb1]
    simp only [if_neg (by simp : ¬(⟨⟨⟨20, 40, 0⟩, ⟨0, 0, 0⟩, false, 0⟩, true,
      false⟩ : BlockEffect).hazard = true)]
    rw [resolveLoop, hb2]
    simp only [if_neg (by simp : ¬(⟨⟨⟨20, 40, 0⟩, ⟨0, 0, 0⟩, false, 0⟩, true,
      false⟩ : BlockEffect).hazard = true)]
    rfl
  have hsol1 : solveOnce sqrtFn [b000, b100] seamMap p1 =
      ⟨⟨20, 40, 0⟩, ⟨0, 0, 0⟩, true, 5⟩ := by
    rw [solveOnce, resolveCollisions, hloop]
    rfl
  have hclear : ∀ (g : Bool) (c : ℕ), ∀ b ∈ [b000, b100],
      CONFIG.playerRadius * CONFIG.playerRadius ≤
      distSqTo (⟨⟨20, 40, 0⟩, ⟨0, 0, 0⟩, g, c⟩ : PlayerState).pos
        (effectiveBounds b seamMap).1 (effectiveBounds b seamMap).2 := by
    intro g c b hb
    simp only [List.mem_cons, List.not_mem_nil, or_false] at hb
    rcases hb with rfl | rfl
    · rw [effSeam_b000]; norm_num [distSqTo, clampQ, CONFIG]
    · rw [effSeam_b100]; norm_num [distSqTo, clampQ, CONFIG]
  have hsv : ∀ (g : Bool) (c : ℕ),
      solveOnce sqrtFn [b000, b100] seamMap ⟨⟨20, 40, 0⟩, ⟨0, 0, 0⟩, g, c⟩ =
      ⟨⟨20, 40, 0⟩, ⟨0, 0, 0⟩, if 0 < c then g else false, c - 1⟩ := by
    intro g c
    have h := noop_when_clear_amended sqrtFn ⟨⟨20, 40, 0⟩, ⟨0, 0, 0⟩, g, c⟩
      [b000, b100] seamMap (hclear g c)
    rw [solveOnce, if_neg (by rw [h.2.2.1]; simp)]
    exact PlayerState.ext h.1 h.2.1 h.2.2.2.2.1 h.2.2.2.1
  have hsvA : solveOnce sqrtFn [b000, b100] seamMap ⟨⟨20, 40, 0⟩, ⟨0, 0, 0⟩, true, 5⟩ =
      ⟨⟨20, 40, 0⟩, ⟨0, 0, 0⟩, true, 4⟩ := by
    have := hsv true 5; simpa using this
  have hsvB : solveOnce sqrtFn [b000, b100] seamMap ⟨⟨20, 40, 0⟩, ⟨0, 0, 0⟩, true, 4⟩ =
      ⟨⟨20, 40, 0⟩, ⟨0, 0, 0⟩, true, 3⟩ := by
    have := hsv true 4; simpa using this
  have hsvC : solveOnce sqrtFn [b000, b100] seamMap ⟨⟨20, 40, 0⟩, ⟨0, 0, 0⟩, true, 3⟩ =
      ⟨⟨20, 40, 0⟩, ⟨0, 0, 0⟩, true, 2⟩ := by
    have := hsv true 3; simpa using this
  rw [fixedUpdatePhysics, happly, hsol1, hsvA, hsvB, hsvC]
  norm_num

/-- The tryMergeWithNeighbor fallback never fires for a lone Standard block:
its merged bounds are its own box. -/
theorem eff_b000_map1 : effectiveBounds b000 map1 = (b000.min, b000.max) := by
  rw [effectiveBounds_standard b000 map1 rfl,
    show bfsCells map1 b000.gy (4 * map1.length + 5)
      [(b000.gx, b000.gy, b000.gz)] [] = [(0, 0, 0)] from by decide]
  simp only [List.filterMap_cons, List.filterMap_nil,
    show BlockMap.get map1 (0, 0, 0) = some b000 from rfl,
    List.foldl_cons, List.foldl_nil]
  norm_num [expandBounds]

/-- C1: (1) whenever the player moves downward and the computed contact
normal is nearly horizontal (|n.y| < 0.35 and |n.x| > 0.5 or |n.z| > 0.5),
the resolver treats the contact as an internal seam: resolveContact returns
the player and grounded flag untouched, and the whole per-block step leaves
the loop state unchanged with no hazard; (2) a player falling straight down
onto the seam between the adjoining Standard blocks at grids (0,0,0) and
(1,0,0) (x centered on the shared edge x = 20, y above both, velocity
(0,-v,0), penetrating this tick) ends the full tick at rest on the surface:
horizontal velocity exactly (0,0), vertical velocity canceled to 0, and
grounded = true. -/
theorem seam_suppression_on_landing :
    (∀ (sqrtFn : ℚ → ℚ) (bm : BlockMap) (b : BlockData) (p : PlayerState)
        (g : Bool),
      p.vel.y < 0 →
      |(contactNormal sqrtFn bm b p.pos).y| < 7/20 →
      (1/2 < |(contactNormal sqrtFn bm b p.pos).x| ∨
        1/2 < |(contactNormal sqrtFn bm b p.pos).z|) →
      resolveContact sqrtFn bm b p g = (p, g) ∧
      (¬(b.type = BlockType.Spike) →
        processBlock sqrtFn bm b p g = ⟨p, g, false⟩)) ∧
    (∀ (sqrtFn : ℚ → ℚ) (y0 v : ℚ),
      0 < v →
      20 + 1/100 ≤ y0 - v - 13/20 →
      y0 - v - 13/20 < 40 →
      sqrtFn 0 = 0 →
      sqrtFn ((y0 - v - 13/20 - 20) * (y0 - v - 13/20 - 20)) =
        y0 - v - 13/20 - 20 →
      fixedUpdatePhysics sqrtFn [b000, b100] seamMap ⟨0, 0, 0⟩ false
          ⟨⟨20, y0, 0⟩, ⟨0, -v, 0⟩, false, 0⟩ =
        ⟨⟨20, 40, 0⟩, ⟨0, 0, 0⟩, true, 2⟩) := by
  constructor
  · intro sqrtFn bm b p g h1 h2 h3
    have hrc : resolveContact sqrtFn bm b p g = (p, g) := by
      rw [resolveContact]
      exact if_pos (Or.inl ⟨h1, h2, h3⟩)
    refine ⟨hrc, ?_⟩
    intro hsp
    rw [processBlock]
    by_cases hbp : broadphaseSkip b p.pos
    · rw [if_pos hbp]
    · rw [if_neg hbp]
      by_cases hcol : distSqTo p.pos (effectiveBounds b bm).1
            (effectiveBounds b bm).2 <
          CONFIG.playerRadius * CONFIG.playerRadius ∧
          1 / 100000 < distSqTo p.pos (effectiveBounds b bm).1
            (effectiveBounds b bm).2
      · rw [if_pos hcol, if_neg hsp, hrc]
      · exact if_neg hcol
  · exact seam_landing_scenario

/-- Sqrt oracle for the C1 witness: exact at 0, 25 and (287/20)². -/
def sqrtC1 : ℚ → ℚ := fun q =>
  if q = 25 then 5 else if q = (287/20) * (287/20) then 287/20 else 0

/-- Player pressing sideways onto a seam-like contact with a lone block. -/
def pSeamW : PlayerState := ⟨⟨25, 0, 0⟩, ⟨0, -1, 0⟩, false, 0⟩

/-- C1 witness: the suppression branch at a concrete horizontal-normal
contact, and the seam-landing scenario at y0 = 45, v = 10. -/
theorem seam_suppression_on_landing_witness :
    (resolveContact sqrtC1 map1 b000 pSeamW false = (pSeamW, false) ∧
      (¬(b000.type = BlockType.Spike) →
        processBlock sqrtC1 map1 b000 pSeamW false = ⟨pSeamW, false, false⟩)) ∧
    fixedUpdatePhysics sqrtC1 [b000, b100] seamMap ⟨0, 0, 0⟩ false
        ⟨⟨20, 45, 0⟩, ⟨0, -10, 0⟩, false, 0⟩ =
      ⟨⟨20, 40, 0⟩, ⟨0, 0, 0⟩, true, 2⟩ := by
  have hnorm : contactNormal sqrtC1 map1 b000 pSeamW.pos = ⟨1, 0, 0⟩ := by
    rw [contactNormal, eff_b000_map1]
    norm_num [closestPoint, clampQ, b000, gridBlock, pSeamW, sqrtC1]
  constructor
  · exact seam_suppression_on_landing.1 sqrtC1 map1 b000 pSeamW false
      (by norm_num [pSeamW]) (by rw [hnorm]; norm_num)
      (by rw [hnorm]; norm_num)
  · exact seam_suppression_on_landing.2 sqrtC1 45 10 (by norm_num)
      (by norm_num) (by norm_num) (by norm_num [sqrtC1])
      (by norm_num [sqrtC1])

/-- The fixed logical step of GameEngine: 1/60 s. -/
def TIME_STEP : ℚ := 1/60

/-- GameEngine timing state (lastTime, accumulator), in seconds. -/
structure SchedState where
  lastTime : ℚ
  accumulator : ℚ
  deriving DecidableEq, Repr

/-- The while-loop of GameEngine.animate: consume the accumulator in fixed
steps, returning the number of fixedUpdate ticks run and the leftover
accumulator.  The source loop terminates because each pass subtracts
TIME_STEP; here that argument is the explicit termination measure. -/
def consumeSteps (acc : ℚ) : ℕ × ℚ :=
  if h : TIME_STEP ≤ acc then
    let r := consumeSteps (acc - TIME_STEP)
    (r.1 + 1, r.2)
  else (0, acc)
termination_by (⌈acc * 60⌉).toNat
decreasing_by
  rw [TIME_STEP] at h
  have h1 : (acc - TIME_STEP) * 60 = acc * 60 - (1:ℤ) := by
    rw [TIME_STEP]; push_cast; ring
  rw [h1, Int.ceil_sub_int]
  have h2 : (1:ℤ) ≤ ⌈acc * 60⌉ := by
    have h3 : (1:ℚ) ≤ acc * 60 := by linarith
    exact_mod_cast le_trans h3 (Int.le_ceil _)
  omega

/-- GameEngine.animate (src/services/GameEngine.ts lines 277-304), timing
part: first invocation only initializes lastTime (no tick); afterwards the
wall-clock delta is clamped to 0.1 s, added to the accumulator, and whole
TIME_STEP ticks are consumed.  `time` is in milliseconds as supplied by
requestAnimationFrame; the ℕ result counts fixedUpdate calls. -/
def animate (st : SchedState) (time : ℚ) : SchedState × ℕ :=
  let seconds := time / 1000
  if st.lastTime = 0 then ({ st with lastTime := seconds }, 0)
  else
    let deltaTime := min (seconds - st.lastTime) (1/10)
    let acc := st.accumulator + deltaTime
    let r := consumeSteps acc
    (⟨seconds, r.2⟩, r.1)

/-- Tick-count bound for the accumulator loop. -/
theorem consumeSteps_le : ∀ (n : ℕ) (acc : ℚ), acc < (n + 1 : ℚ) * TIME_STEP →
    (consumeSteps acc).1 ≤ n := by
  intro n
  induction n with
  | zero =>
    intro acc h
    rw [consumeSteps, dif_neg (by rw [TIME_STEP] at h ⊢; push_cast at h; linarith)]
  | succ m ih =>
    intro acc h
    rw [consumeSteps]
    by_cases hc : TIME_STEP ≤ acc
    · rw [dif_pos hc]
      have hr := ih (acc - TIME_STEP) (by
        rw [TIME_STEP] at h hc ⊢
        push_cast at h ⊢
        linarith)
      show (consumeSteps (acc - TIME_STEP)).1 + 1 ≤ m + 1
      omega
    · rw [dif_neg hc]
      exact Nat.zero_le _

/-- The leftover accumulator is always below one step. -/
theorem consumeSteps_rem : ∀ (N : ℕ) (acc : ℚ), (⌈acc * 60⌉).toNat ≤ N →
    (consumeSteps acc).2 < TIME_STEP := by
  intro N
  induction N with
  | zero =>
    intro acc h
    rw [consumeSteps]
    by_cases hc : TIME_STEP ≤ acc
    · exfalso
      rw [TIME_STEP] at hc
      have h3 : (1:ℚ) ≤ acc * 60 := by linarith
      have h2 : (1:ℤ) ≤ ⌈acc * 60⌉ := by
        exact_mod_cast le_trans h3 (Int.le_ceil _)
      omega
    · rw [dif_neg hc]
      exact not_le.mp hc
  | succ M ih =>
    intro acc h
    rw [consumeSteps]
    by_cases hc : TIME_STEP ≤ acc
    · rw [dif_pos hc]
      show (consumeSteps (acc - TIME_STEP)).2 < TIME_STEP
      apply ih
      have h1 : (acc - TIME_STEP) * 60 = acc * 60 - (1:ℤ) := by
        rw [TIME_STEP]; push_cast; ring
      rw [h1, Int.ceil_sub_int]
      omega
    · rw [dif_neg hc]
      exact not_le.mp hc

/-- C6: floor(0.1 / TIME_STEP) = 6; a single animate invocation with the
pre-invocation invariant accumulator < TIME_STEP runs at most 6 ticks no
matter how large the reported delta is, and re-establishes the invariant;
the first invocation after startup (lastTime = 0) runs no tick at all and
only initializes the timing state. -/
theorem accumulator_clamp_and_first_frame :
    (⌊(1/10 : ℚ) / TIME_STEP⌋₊ = 6) ∧
    (∀ (st : SchedState) (time : ℚ), st.lastTime = 0 →
      animate st time = ({ st with lastTime := time / 1000 }, 0)) ∧
    (∀ (st : SchedState) (time : ℚ), st.accumulator < TIME_STEP →
      (animate st time).2 ≤ 6 ∧ (animate st time).1.accumulator < TIME_STEP) := by
  refine ⟨by norm_num [TIME_STEP], ?_, ?_⟩
  · intro st time h
    rw [animate, if_pos h]
  · intro st time h
    rw [animate]
    by_cases h0 : st.lastTime = 0
    · rw [if_pos h0]
      exact ⟨Nat.zero_le _, h⟩
    · rw [if_neg h0]
      constructor
      · apply consumeSteps_le 6
        have hm : min (time / 1000 - st.lastTime) (1/10) ≤ 1/10 :=
          min_le_right _ _
        rw [TIME_STEP] at h ⊢
        push_cast
        linarith
      · exact consumeSteps_rem _ _ (le_refl _)

/-- C6 witness: a 5-second reported delta (time 6000 ms against lastTime
1 s) still runs at most 6 ticks, and the first frame runs none. -/
theorem accumulator_clamp_and_first_frame_witness :
    animate ⟨0, 0⟩ 1000 = ({ lastTime := 1000 / 1000, accumulator := 0 }, 0) ∧
    (animate ⟨1, 0⟩ 6000).2 ≤ 6 ∧
    (animate ⟨1, 0⟩ 6000).1.accumulator < TIME_STEP :=
  ⟨accumulator_clamp_and_first_frame.2.1 ⟨0, 0⟩ 1000 rfl,
    accumulator_clamp_and_first_frame.2.2 ⟨1, 0⟩ 6000
      (by norm_num [TIME_STEP])⟩

/-- JS `Math.round`: floor(x + 1/2), rounding half toward +infinity. -/
def roundJS (q : ℚ) : ℤ := ⌊q + 1/2⌋

/-- The spiral grid x at step i:
`Math.round(Math.cos(i*0.35) * (4 + Math.sin(i*0.1) * 1.5))`, with
`Math.cos`/`Math.sin` threaded as explicit function parameters. -/
def spiralBx (cosF sinF : ℚ → ℚ) (i : ℕ) : ℤ :=
  roundJS (cosF ((i : ℚ) * (7/20)) * (4 + sinF ((i : ℚ) * (1/10)) * (3/2)))

/-- The spiral grid z at step i:
`Math.round(Math.sin(i*0.35) * (4 + Math.sin(i*0.1) * 1.5))`. -/
def spiralBz (cosF sinF : ℚ → ℚ) (i : ℕ) : ℤ :=
  roundJS (sinF ((i : ℚ) * (7/20)) * (4 + sinF ((i : ℚ) * (1/10)) * (3/2)))

/-- The generator's accumulating state: the blocks array and the block map. -/
structure GenState where
  blocksData : List BlockData
  blockMap : BlockMap
  deriving Repr

/-- LevelGenerator.addBlock (src/services/LevelGenerator.ts lines 10-27):
world geometry from the grid coordinate and blockSize, id = insertion index,
push to the array, set into the map. -/
def addBlock (st : GenState) (gx gy gz : ℤ) (t : BlockType) : GenState :=
  let px : ℚ := gx * CONFIG.blockSize
  let py : ℚ := gy * CONFIG.blockSize
  let pz : ℚ := gz * CONFIG.blockSize
  let half := CONFIG.blockSize / 2
  let block : BlockData :=
    { min := ⟨px - half, py - half, pz - half⟩,
      max := ⟨px + half, py + half, pz + half⟩,
      center := ⟨px, py, pz⟩,
      gx := gx, gy := gy, gz := gz, type := t, id := st.blocksData.length }
  { blocksData := st.blocksData ++ [block],
    blockMap := BlockMap.set st.blockMap (gx, gy, gz) block }

/-- The base-platform loop order: x from -2 to 2 outer, z inner. -/
def basePairs : List (ℤ × ℤ) :=
  (List.range 5).bind (fun i => (List.range 5).map (fun j => ((i : ℤ) - 2, (j : ℤ) - 2)))

/-- Generator state during the spiral loop; randIdx counts Math.random()
invocations (one per branch step, drawn before the occupancy check). -/
structure SpiralState where
  gen : GenState
  currentY : ℤ
  randIdx : ℕ
  deriving Repr

/-- One iteration of the spiral-tower loop (src/services/LevelGenerator.ts
lines 39-64): main spiral block; every 6th step a random side platform,
guarded by occupancy; on spike steps (i > 10, i % 8 = 0) a Spike above and
no height increase, otherwise height increases on even steps. -/
def spiralStep (cosF sinF : ℚ → ℚ) (rand : ℕ → ℚ) (st : SpiralState)
    (i : ℕ) : SpiralState :=
  let bx := spiralBx cosF sinF i
  let bz := spiralBz cosF sinF i
  let st1 : SpiralState :=
    { st with gen := addBlock st.gen bx st.currentY bz BlockType.Standard }
  -- Random side platforms
  let st2 : SpiralState :=
    if i % 6 = 0 then
      let nx : ℤ := bx + (if 1/2 < rand st1.randIdx then 1 else -1)
      let st1b : SpiralState := { st1 with randIdx := st1.randIdx + 1 }
      if BlockMap.has st1b.gen.blockMap (nx, st1b.currentY, bz) = true then st1b
      else { st1b with
        gen := addBlock st1b.gen nx st1b.currentY bz BlockType.Standard }
    else st1
  -- Spikes placement, else height increase every other step
  if 10 < i ∧ i % 8 = 0 then
    { st2 with gen := addBlock st2.gen bx (st2.currentY + 1) bz BlockType.Spike }
  else if i % 2 = 0 then { st2 with currentY := st2.currentY + 1 }
  else st2

/-- The generator's base-platform state: 25 Standard blocks at gy = 0. -/
def baseState : GenState :=
  basePairs.foldl (fun st xz => addBlock st xz.1 0 xz.2 BlockType.Standard) ⟨[], []⟩

/-- LevelGenerator.generate: base platform, 100 spiral steps, victory
platform and finial; returns the final state and winHeight = topY *
blockSize.  `Math.cos`, `Math.sin` and `Math.random` are explicit function
parameters of the embedding (the source reads them from the Math global). -/
def generate (cosF sinF : ℚ → ℚ) (rand : ℕ → ℚ) : GenState × ℚ :=
  let spEnd := (List.range 100).foldl (spiralStep cosF sinF rand) ⟨baseState, 1, 0⟩
  let topY := spEnd.currentY + 1
  let g1 := addBlock spEnd.gen 0 topY 0 BlockType.Standard
  let g2 := addBlock g1 0 (topY + 1) 0 BlockType.Spike
  (g2, (topY : ℚ) * CONFIG.blockSize)

/-- The grid coordinate of a block, as keyed by the generator's map. -/
def blockKey (b : BlockData) : GridKey := (b.gx, b.gy, b.gz)

/-- The grid keys of the generated blocks, in insertion order. -/
def genKeys (st : GenState) : List GridKey := st.blocksData.map blockKey

/-- The keys of the block map, in insertion order. -/
def mapKeys (st : GenState) : List GridKey := st.blockMap.map Prod.fst

/-- Adding a block at gy ≠ 0 leaves the gy = 0 slice of the blocks array
unchanged. -/
theorem addBlock_filter_gy (st : GenState) (gx gy gz : ℤ) (t : BlockType)
    (h : ¬(gy = 0)) :
    (addBlock st gx gy gz t).blocksData.filter (fun b => b.gy = 0) =
      st.blocksData.filter (fun b => b.gy = 0) := by
  simp [addBlock, List.filter_append, h]

/-- A spiral step keeps currentY or increments it by one. -/
theorem spiralStep_curY (cosF sinF : ℚ → ℚ) (rand : ℕ → ℚ) (sp : SpiralState)
    (i : ℕ) :
    (spiralStep cosF sinF rand sp i).currentY = sp.currentY ∨
      (spiralStep cosF sinF rand sp i).currentY = sp.currentY + 1 := by
  rw [spiralStep]
  split_ifs <;> simp [apply_ite]

/-- With currentY ≥ 1, a spiral step never touches the gy = 0 slice: every
block it adds is at gy = currentY or currentY + 1. -/
theorem spiralStep_filter (cosF sinF : ℚ → ℚ) (rand : ℕ → ℚ) (sp : SpiralState)
    (i : ℕ) (h : 1 ≤ sp.currentY) :
    (spiralStep cosF sinF rand sp i).gen.blocksData.filter (fun b => b.gy = 0) =
      sp.gen.blocksData.filter (fun b => b.gy = 0) := by
  have hy : ¬(sp.currentY = 0) := by omega
  have hy1 : ¬(sp.currentY + 1 = 0) := by omega
  rw [spiralStep]
  split_ifs <;> simp [apply_ite, addBlock_filter_gy, hy, hy1]

/-- Over the whole spiral loop, the gy = 0 slice is invariant and
currentY stays ≥ 1. -/
theorem spiral_fold_gy (cosF sinF : ℚ → ℚ) (rand : ℕ → ℚ) :
    ∀ (l : List ℕ) (sp : SpiralState), 1 ≤ sp.currentY →
      ((l.foldl (spiralStep cosF sinF rand) sp).gen.blocksData.filter
        (fun b => b.gy = 0)) = sp.gen.blocksData.filter (fun b => b.gy = 0) ∧
      1 ≤ (l.foldl (spiralStep cosF sinF rand) sp).currentY := by
  intro l
  induction l with
  | nil => intro sp h; exact ⟨rfl, h⟩
  | cons i t ih =>
    intro sp h
    rw [List.foldl_cons]
    have h1 : 1 ≤ (spiralStep cosF sinF rand sp i).currentY := by
      rcases spiralStep_curY cosF sinF rand sp i with he | he <;> omega
    have h2 := ih (spiralStep cosF sinF rand sp i) h1
    exact ⟨h2.1.trans (spiralStep_filter cosF sinF rand sp i h), h2.2⟩

/-- A spiral step only appends to the blocks array. -/
theorem spiralStep_appendsBlocks (cosF sinF : ℚ → ℚ) (rand : ℕ → ℚ)
    (sp : SpiralState) (i : ℕ) :
    List.IsPrefix sp.gen.blocksData
      (spiralStep cosF sinF rand sp i).gen.blocksData := by
  rw [spiralStep]
  split_ifs <;> simp [addBlock, apply_ite, List.append_assoc] <;>
    split_ifs <;> simp [addBlock, List.append_assoc, List.prefix_append]

/-- The spiral loop only appends to the blocks array. -/
theorem spiralFold_appendsBlocks (cosF sinF : ℚ → ℚ) (rand : ℕ → ℚ) :
    ∀ (l : List ℕ) (sp : SpiralState),
      List.IsPrefix sp.gen.blocksData
        ((l.foldl (spiralStep cosF sinF rand) sp).gen.blocksData) := by
  intro l
  induction l with
  | nil => intro sp; exact List.prefix_rfl
  | cons i t ih =>
    intro sp
    rw [List.foldl_cons]
    exact (spiralStep_appendsBlocks cosF sinF rand sp i).trans
      (ih (spiralStep cosF sinF rand sp i))

/-- The state after spiral step 0 is a prefix of generate's final blocks
array. -/
theorem generate_extendsStep0 (cosF sinF : ℚ → ℚ) (rand : ℕ → ℚ) :
    List.IsPrefix
      ((spiralStep cosF sinF rand ⟨baseState, 1, 0⟩ 0).gen.blocksData)
      ((generate cosF sinF rand).1.blocksData) := by
  have h100 : List.range 100 = 0 :: (List.range 99).map Nat.succ :=
    List.range_succ_eq_map 99
  simp only [generate, h100, List.foldl_cons]
  exact List.IsPrefix.trans
    (spiralFold_appendsBlocks cosF sinF rand ((List.range 99).map Nat.succ)
      (spiralStep cosF sinF rand ⟨baseState, 1, 0⟩ 0))
    (by simp [addBlock, List.append_assoc, List.prefix_append])

/-- Step 0 with zero trig and a random draw of 0 (Math.random ≤ 0.5): the
side platform goes to gx = -1. -/
theorem spiralStep0_rand0 :
    spiralStep (fun _ => 0) (fun _ => 0) (fun _ => (0:ℚ)) ⟨baseState, 1, 0⟩ 0 =
      ⟨addBlock (addBlock baseState 0 1 0 BlockType.Standard) (-1) 1 0
        BlockType.Standard, 2, 1⟩ := by
  have hbx : spiralBx (fun _ => 0) (fun _ => 0) 0 = 0 := by
    norm_num [spiralBx, roundJS]
  have hbz : spiralBz (fun _ => 0) (fun _ => 0) 0 = 0 := by
    norm_num [spiralBz, roundJS]
  have hocc : BlockMap.has (addBlock baseState 0 1 0 BlockType.Standard).blockMap
      ((-1 : ℤ), (1 : ℤ), (0 : ℤ)) = false := by decide
  rw [spiralStep]
  simp only [hbx, hbz]
  norm_num [hocc]

/-- Step 0 with zero trig and a random draw of 3/5 (Math.random > 0.5): the
side platform goes to gx = 1. -/
theorem spiralStep0_rand35 :
    spiralStep (fun _ => 0) (fun _ => 0) (fun _ => (3/5:ℚ)) ⟨baseState, 1, 0⟩ 0 =
      ⟨addBlock (addBlock baseState 0 1 0 BlockType.Standard) 1 1 0
        BlockType.Standard, 2, 1⟩ := by
  have hbx : spiralBx (fun _ => 0) (fun _ => 0) 0 = 0 := by
    norm_num [spiralBx, roundJS]
  have hbz : spiralBz (fun _ => 0) (fun _ => 0) 0 = 0 := by
    norm_num [spiralBz, roundJS]
  have hocc : BlockMap.has (addBlock baseState 0 1 0 BlockType.Standard).blockMap
      ((1 : ℤ), (1 : ℤ), (0 : ℤ)) = false := by decide
  rw [spiralStep]
  simp only [hbx, hbz]
  norm_num [hocc]

/-- A throwaway default block for List.getD. -/
def dummyBlock : BlockData :=
  ⟨⟨0, 0, 0⟩, ⟨0, 0, 0⟩, ⟨0, 0, 0⟩, 0, 0, 0, BlockType.Standard, 0⟩

/-- C7 counterexample: generate's output genuinely depends on the stream of
Math.random values consumed.  The source's generate() takes no randomSource
parameter — it reads the hidden global Math.random directly (the spec's
claimed contract generate(config, randomSource) does not exist) — so two
admissible random streams (all values in [0,1)) that differ give different
block sets, and two successive live calls are not reproducible. -/
theorem generate_hidden_random_counterexample :
    ∃ r1 r2 : ℕ → ℚ,
      (∀ n, 0 ≤ r1 n ∧ r1 n < 1) ∧ (∀ n, 0 ≤ r2 n ∧ r2 n < 1) ∧
      generate (fun _ => 0) (fun _ => 0) r1 ≠
        generate (fun _ => 0) (fun _ => 0) r2 := by
  refine ⟨fun _ => 0, fun _ => 3/5, fun n => by norm_num, fun n => by norm_num,
    fun heq => ?_⟩
  have h1 := generate_extendsStep0 (fun _ => 0) (fun _ => 0) (fun _ => 0)
  have h2 := generate_extendsStep0 (fun _ => 0) (fun _ => 0) (fun _ => 3/5)
  rw [spiralStep0_rand0] at h1
  rw [spiralStep0_rand35] at h2
  obtain ⟨t1, ht1⟩ := h1
  obtain ⟨t2, ht2⟩ := h2
  have hgx1 : (((generate (fun _ => 0) (fun _ => 0)
      (fun _ => (0:ℚ))).1.blocksData.getD 26 dummyBlock).gx) = -1 := by
    rw [← ht1, List.getD_append _ _ _ _ (by decide)]
    decide
  have hgx2 : (((generate (fun _ => 0) (fun _ => 0)
      (fun _ => (3/5:ℚ))).1.blocksData.getD 26 dummyBlock).gx) = 1 := by
    rw [← ht2, List.getD_append _ _ _ _ (by decide)]
    decide
  rw [heq] at hgx1
  rw [hgx2] at hgx1
  exact absurd hgx1 (by decide)

/-- C7 (amended): every run of generate, whatever the trig and random
sources do, has exactly the 25 Standard base-platform blocks as its gy = 0
slice, one per (gx,gz) ∈ [-2,2]² in loop order; and generate is a
deterministic function of the Math.random value stream: two runs whose
streams agree pointwise produce identical outputs (blocks with ids,
coordinates and types, map, winHeight).  Reproducibility of two successive
live calls additionally needs the stream fixed, which the source's
parameterless generate() reading the global Math.random does not provide. -/
theorem generator_base_platform_and_determinism :
    (∀ (cosF sinF : ℚ → ℚ) (rand : ℕ → ℚ),
      (generate cosF sinF rand).1.blocksData.filter (fun b => b.gy = 0) =
        baseState.blocksData ∧
      baseState.blocksData.length = 25 ∧
      baseState.blocksData.map (fun b => (b.gx, b.gz)) = basePairs ∧
      (∀ b ∈ baseState.blocksData, b.type = BlockType.Standard ∧ b.gy = 0)) ∧
    (∀ (cosF sinF : ℚ → ℚ) (r1 r2 : ℕ → ℚ), (∀ n, r1 n = r2 n) →
      generate cosF sinF r1 = generate cosF sinF r2) := by
  constructor
  · intro cosF sinF rand
    refine ⟨?_, by decide, by decide, by decide⟩
    have hfold := spiral_fold_gy cosF sinF rand (List.range 100) ⟨baseState, 1, 0⟩
      (by norm_num)
    simp only [generate]
    rw [addBlock_filter_gy _ _ _ _ _ (by omega),
      addBlock_filter_gy _ _ _ _ _ (by
        have := hfold.2
        omega),
      hfold.1]
    exact List.filter_eq_self.mpr (by decide)
  · intro cosF sinF r1 r2 h
    have hstep : ∀ (sp : SpiralState) (i : ℕ),
        spiralStep cosF sinF r1 sp i = spiralStep cosF sinF r2 sp i := by
      intro sp i
      simp only [spiralStep, h]
    have hfold : ∀ (l : List ℕ) (sp : SpiralState),
        l.foldl (spiralStep cosF sinF r1) sp =
          l.foldl (spiralStep cosF sinF r2) sp := by
      intro l
      induction l with
      | nil => intro sp; rfl
      | cons i t ih =>
        intro sp
        rw [List.foldl_cons, List.foldl_cons, hstep, ih]
    simp only [generate, hfold]

/-- C7 witness: the amended theorem applied at the all-zero trig and random
streams, with the pointwise-equal hypothesis discharged by rfl. -/
theorem generator_base_platform_and_determinism_witness :
    ((generate (fun _ => 0) (fun _ => 0) (fun _ => (0:ℚ))).1.blocksData.filter
        (fun b => b.gy = 0) = baseState.blocksData ∧
      baseState.blocksData.length = 25 ∧
      baseState.blocksData.map (fun b => (b.gx, b.gz)) = basePairs ∧
      (∀ b ∈ baseState.blocksData, b.type = BlockType.Standard ∧ b.gy = 0)) ∧
    generate (fun _ => 0) (fun _ => 0) (fun _ => (0:ℚ)) =
      generate (fun _ => 0) (fun _ => 0) (fun _ => (0:ℚ)) :=
  ⟨generator_base_platform_and_determinism.1 (fun _ => 0) (fun _ => 0)
      (fun _ => 0),
    generator_base_platform_and_determinism.2 (fun _ => 0) (fun _ => 0)
      (fun _ => 0) (fun _ => 0) (fun _ => rfl)⟩
def spiralTable : List (ℤ × ℤ) := [
  (4, 0), (4, 1), (3, 3), (2, 4), (1, 5), (-1, 5),
  (-2, 4), (-4, 3), (-5, 2), (-5, 0), (-5, -2), (-4, -3),
  (-3, -5), (-1, -5), (1, -5), (3, -5), (4, -3), (5, -2),
  (5, 0), (5, 2), (4, 4), (3, 5), (1, 5), (-1, 5),
  (-3, 4), (-4, 3), (-5, 2), (-5, 0), (-4, -2), (-3, -3),
  (-2, -4), (-1, -4), (1, -4), (2, -3), (3, -2), (3, -1),
  (3, 0), (3, 1), (2, 2), (1, 3), (0, 3), (-1, 3),
  (-1, 2), (-2, 2), (-2, 1), (-3, 0), (-2, -1), (-2, -2),
  (-1, -2), (0, -3), (1, -2), (1, -2), (2, -2), (3, -1),
  (3, 0), (3, 1), (2, 2), (1, 3), (0, 3), (-1, 3),
  (-2, 3), (-3, 2), (-4, 1), (-4, 0), (-4, -2), (-3, -3),
  (-2, -4), (-1, -5), (1, -5), (3, -4), (4, -3), (5, -1),
  (5, 0), (5, 2), (4, 4), (2, 5), (1, 5), (-1, 5),
  (-3, 5), (-4, 3), (-5, 1), (-5, 0), (-5, -2), (-4, -4),
  (-2, -5), (0, -5), (1, -5), (3, -4), (4, -3), (5, -1),
  (5, 0), (4, 2), (3, 3), (2, 4), (0, 4), (-1, 4),
  (-2, 3), (-3, 2), (-3, 1), (-3, 0)]

def cosZtab : List ℤ := [
  10000, 9394, 7648, 4976, 1700, -1782, -5048, -7702, -9422, -10000, -9365, -7594,
  -4903, -1617, 1865, 5121, 7756, 9450, 9999, 9335, 7539, 4829, 1534, -1948,
  -5193, -7808, -9477, -9997, -9304, -7484, -4755, -1451, 2030, 5265, 7861, 9504,
  9994, 9273, 7427, 4681, 1367, -2112, -5336, -7912, -9530, -9991, -9241, -7371,
  -4607, -1284, 2194, 5407, 7964, 9555, 9987, 9209, 7314, 4532, 1201, -2276,
  -5477, -8014, -9579, -9983, -9176, -7256, -4457, -1117, 2358, 5547, 8064, 9603,
  9977, 9142, 7198, 4381, 1034, -2440, -5617, -8114, -9626, -9971, -9108, -7140,
  -4306, -950, 2521, 5687, 8162, 9648, 9965, 9073, 7080, 4230, 866, -2602,
  -5756, -8211, -9670, -9957]

set_option maxHeartbeats 2000000 in
set_option maxRecDepth 8000 in
def sinZtab : List ℤ := [
  0, 500, 998, 1494, 1987, 2474, 2955, 3429, 3894, 4350, 4794, 5227,
  5646, 6052, 6442, 6816, 7174, 7513, 7833, 8134, 8415, 8674, 8912, 9128,
  9320, 9490, 9636, 9757, 9854, 9927, 9975, 9998, 9996, 9969, 9917, 9840,
  9738, 9613, 9463, 9290, 9093, 8874, 8632, 8369, 8085, 7781, 7457, 7115,
  6755, 6378, 5985, 5577, 5155, 4720, 4274, 3817, 3350, 2875, 2392, 1904,
  1411, 915, 416, -84, -584, -1082, -1577, -2069, -2555, -3035, -3508, -3971,
  -4425, -4868, -5298, -5716, -6119, -6506, -6878, -7232, -7568, -7885, -8183, -8460,
  -8716, -8950, -9162, -9351, -9516, -9658, -9775, -9868, -9937, -9981, -9999, -9993,
  -9962, -9905, -9825, -9719, -9589, -9435, -9258, -9058, -8835, -8589, -8323, -8035,
  -7728, -7401, -7055, -6692, -6313, -5917, -5507, -5083, -4646, -4198, -3739, -3271,
  -2794, -2311, -1822, -1328, -831, -332, 168, 668, 1165, 1660, 2151, 2637,
  3115, 3586, 4048, 4500, 4941, 5369, 5784, 6185, 6570, 6938, 7290, 7623,
  7937, 8231, 8504, 8757, 8987, 9195, 9380, 9542, 9679, 9793, 9882, 9946,
  9985, 10000, 9989, 9954, 9894, 9808, 9699, 9565, 9407, 9226, 9022, 8795,
  8546, 8276, 7985, 7674, 7344, 6996, 6630, 6247, 5849, 5436, 5010, 4571,
  4121, 3661, 3191, 2713, 2229, 1739, 1245, 747, 248, -252, -752, -1249,
  -1743, -2233, -2718, -3195, -3665, -4125, -4575, -5014, -5440, -5853, -6251, -6633,
  -6999, -7347, -7677, -7988, -8278, -8548, -8797, -9024, -9228, -9409, -9566, -9700,
  -9809, -9894, -9954, -9990, -10000, -9985, -9946, -9881, -9792, -9678, -9540, -9378,
  -9193, -8985, -8755, -8502, -8228, -7934, -7620, -7287, -6935, -6567, -6181, -5781,
  -5366, -4937, -4496, -4044, -3582, -3111, -2632, -2147, -1656, -1161, -663, -164,
  336, 835, 1332, 1826, 2315, 2798, 3275, 3743, 4202, 4650, 5087, 5511,
  5921, 6316, 6696, 7059, 7404, 7730, 8038, 8325, 8592, 8837, 9060, 9260,
  9437, 9591, 9720, 9825, 9906, 9962, 9993, 9999, 9980, 9936, 9868, 9774,
  9657, 9515, 9349, 9160, 8948, 8714, 8457, 8180, 7883, 7565, 7229, 6874,
  6503, 6115, 5712, 5295, 4864, 4421, 3967, 3504, 3031, 2551, 2065, 1573,
  1078, 579, 80, -420, -919, -1416, -1909, -2397, -2879, -3354, -3821, -4278,
  -4724, -5159, -5581, -5988, -6381, -6758, -7118, -7460, -7784, -8088, -8371, -8634,
  -8876, -9095, -9291, -9464, -9614, -9739, -9841, -9917, -9969, -9996, -9998, -9975,
  -9927, -9854, -9756, -9634, -9488, -9319, -9126, -8910, -8672, -8412, -8132, -7831,
  -7510, -7170, -6813, -6439, -6048, -5643, -5223, -4790, -4346, -3890, -3425, -2951,
  -2470, -1982, -1490, -994, -495, 4, 504, 1003, 1499, 1991, 2478, 2959,
  3433, 3898, 4354, 4798, 5231, 5650, 6055, 6446, 6820, 7177, 7516, 7836,
  8137, 8417, 8676, 8914, 9129, 9322, 9491, 9637, 9758, 9855, 9928, 9975,
  9998, 9996, 9968, 9916, 9839, 9737, 9612, 9462, 9288, 9091, 8872, 8630,
  8367, 8082, 7778, 7454, 7112, 6751, 6374, 5981, 5573, 5151, 4716, 4270,
  3813, 3346, 2871, 2388, 1900, 1407, 910, 411, -89, -588, -1086, -1582,
  -2073, -2560, -3040, -3512, -3976, -4429, -4872, -5302, -5719, -6122, -6510, -6881,
  -7235, -7571, -7888, -8185, -8462, -8718, -8952, -9163, -9352, -9517, -9659, -9776,
  -9869, -9937, -9981, -9999, -9993, -9961, -9905, -9824, -9718, -9588, -9434, -9256,
  -9056, -8832, -8587, -8320, -8033, -7725, -7398, -7052, -6689, -6309, -5914, -5503,
  -5079, -4642, -4194, -3735, -3266, -2790, -2306, -1817, -1324, -826, -327, 173,
  672, 1170, 1665, 2156, 2641, 3120, 3591, 4053, 4504, 4945, 5373, 5788,
  6188, 6573, 6942, 7293, 7626, 7939, 8233, 8507, 8759, 8989, 9197, 9382,
  9543, 9680, 9794, 9882, 9946, 9986, 10000, 9989, 9954, 9893, 9808, 9698,
  9564, 9406, 9224, 9020, 8793, 8544, 8273, 7982, 7671, 7341, 6992, 6626,
  6244, 5846, 5433, 5006, 4567, 4117, 3657, 3187, 2709, 2225, 1735, 1240,
  743, 243, -257, -756, -1253, -1748, -2238, -2722, -3199, -3669, -4129, -4579,
  -5018, -5444, -5856, -6254, -6636, -7002, -7350, -7680, -7990, -8281, -8551, -8799,
  -9026, -9229, -9410, -9568, -9701, -9810, -9895, -9955, -9990, -10000, -9985, -9945,
  -9880, -9791, -9677, -9539, -9377, -9192, -8983, -8752, -8500, -8226, -7931, -7617,
  -7284, -6932, -6563, -6178, -5777, -5362, -4933, -4493, -4040, -3578, -3107, -2628,
  -2143, -1652, -1157, -659, -159, 341, 840, 1337, 1830, 2319, 2803, 3279,
  3747, 4206, 4654, 5090, 5514, 5924, 6320, 6699, 7062, 7407, 7733, 8040,
  8328, 8594, 8839, 9061, 9262, 9438, 9592, 9721, 9826, 9907, 9962, 9993,
  9999, 9980, 9936, 9867, 9773, 9655, 9513, 9347, 9158, 8946, 8711, 8455,
  8178, 7880, 7562, 7226, 6871, 6500, 6112, 5708, 5291, 4860, 4417, 3963,
  3500, 3027, 2547, 2060, 1569, 1073, 575, 75, -425, -923, -1420, -1913,
  -2401, -2883, -3358, -3825]

/-- Boolean membership of a grid key in a list of keys. -/
def keyMem (k : GridKey) (l : List GridKey) : Bool := l.any (fun c => c = k)

/-- State of the uniqueness checker that runs the spiral loop over the
concrete table of rounded spiral coordinates: a superset of the occupied
cells (both side-platform candidates are always added, inserted or not),
the current height, and whether every unguarded insertion so far hit a
fresh cell. -/
structure ChkState where
  cells : List GridKey
  curY : ℤ
  ok : Bool
  deriving Repr

/-- One checker step, mirroring spiralStep on the concrete coordinate
table: the main spiral cell must be fresh; on side-platform steps both
candidate cells bx ± 1 enter the superset (the real insertion is guarded
by occupancy, so it never overwrites); on spike steps the spike cell must
be fresh against the superset. -/
def chkStep (cs : ChkState) (i : ℕ) : ChkState :=
  let bx := (spiralTable.getD i (0, 0)).1
  let bz := (spiralTable.getD i (0, 0)).2
  let c1 : GridKey := (bx, cs.curY, bz)
  let ok1 := cs.ok && !(keyMem c1 cs.cells)
  let cells1 := c1 :: cs.cells
  let cells2 := if i % 6 = 0 then
      (bx + 1, cs.curY, bz) :: (bx - 1, cs.curY, bz) :: cells1
    else cells1
  if 10 < i ∧ i % 8 = 0 then
    { cells := (bx, cs.curY + 1, bz) :: cells2, curY := cs.curY,
      ok := ok1 && !(keyMem (bx, cs.curY + 1, bz) cells2) }
  else if i % 2 = 0 then { cells := cells2, curY := cs.curY + 1, ok := ok1 }
  else { cells := cells2, curY := cs.curY, ok := ok1 }

/-- Checker start state: the 25 base-platform cells, height 1. -/
def chkInit : ChkState :=
  { cells := basePairs.map (fun xz => (xz.1, 0, xz.2)), curY := 1, ok := true }

/-- The checker after the 100 spiral steps. -/
def chkRun : ChkState := (List.range 100).foldl chkStep chkInit

/-- Full checker verdict: the loop verdict plus freshness of the victory
block and the finial above it. -/
def chkFinal : Bool :=
  chkRun.ok && !(keyMem (0, chkRun.curY + 1, 0) chkRun.cells) &&
    !(keyMem (0, chkRun.curY + 2, 0) ((0, chkRun.curY + 1, 0) :: chkRun.cells))

set_option maxHeartbeats 4000000 in
set_option maxRecDepth 20000 in
/-- The checker accepts: every unguarded insertion of the generator is
fresh, for the concrete table of rounded spiral coordinates. -/
theorem chkFinal_true : chkFinal = true := by decide

set_option maxHeartbeats 4000000 in
set_option maxRecDepth 20000 in
/-- The loop part of the checker verdict alone. -/
theorem chkRun_ok : chkRun.ok = true := by decide

/-- keyMem decides list membership. -/
theorem keyMem_iff (k : GridKey) (l : List GridKey) :
    keyMem k l = true ↔ k ∈ l := by
  simp [keyMem, List.any_eq_true]

/-- map.has is membership in the map's key list. -/
theorem has_iff_mapKeys (st : GenState) (k : GridKey) :
    BlockMap.has st.blockMap k = true ↔ k ∈ mapKeys st := by
  simp [BlockMap.has, mapKeys, List.any_eq_true, List.mem_map]

/-- addBlock appends one key to the block array's key list. -/
theorem genKeys_addBlock (st : GenState) (gx gy gz : ℤ) (t : BlockType) :
    genKeys (addBlock st gx gy gz t) = genKeys st ++ [(gx, gy, gz)] := by
  simp [genKeys, addBlock, blockKey]

/-- addBlock on a fresh key appends to the map's key list. -/
theorem mapKeys_addBlock (st : GenState) (gx gy gz : ℤ) (t : BlockType)
    (h : ¬((gx, gy, gz) ∈ mapKeys st)) :
    mapKeys (addBlock st gx gy gz t) = mapKeys st ++ [(gx, gy, gz)] := by
  have hh : ¬(BlockMap.has st.blockMap (gx, gy, gz) = true) := by
    rw [has_iff_mapKeys]; exact h
  simp only [mapKeys, addBlock]
  rw [BlockMap.set, if_neg hh]
  simp

/-- A fresh-key insertion preserves distinctness of the generated keys and
the map-array key agreement. -/
theorem addBlock_inv (st : GenState) (gx gy gz : ℤ) (t : BlockType)
    (hn : (genKeys st).Nodup) (hm : mapKeys st = genKeys st)
    (hf : ¬((gx, gy, gz) ∈ genKeys st)) :
    (genKeys (addBlock st gx gy gz t)).Nodup ∧
    mapKeys (addBlock st gx gy gz t) = genKeys (addBlock st gx gy gz t) := by
  have hf' : ¬((gx, gy, gz) ∈ mapKeys st) := by rw [hm]; exact hf
  constructor
  · rw [genKeys_addBlock]
    simp [List.nodup_append, hn, hf]
  · rw [genKeys_addBlock, mapKeys_addBlock st gx gy gz t hf', hm]

/-- The lockstep invariant: checker height matches generator height, the
generated keys are distinct, the map's keys are exactly the generated keys
(every map.set appended, so no insertion ever overwrote), and the checker's
cell superset covers every generated key. -/
abbrev ChkInv (cs : ChkState) (sp : SpiralState) : Prop :=
  cs.curY = sp.currentY ∧
  (genKeys sp.gen).Nodup ∧
  mapKeys sp.gen = genKeys sp.gen ∧
  ∀ k ∈ genKeys sp.gen, k ∈ cs.cells

/-- The checker verdict only goes from true to false. -/
theorem chkStep_ok (cs : ChkState) (i : ℕ)
    (h : (chkStep cs i).ok = true) : cs.ok = true := by
  rw [chkStep] at h
  split_ifs at h <;> simp only [Bool.and_eq_true] at h <;> tauto

/-- A true verdict after a fold means a true verdict at its start. -/
theorem chkFold_ok : ∀ (l : List ℕ) (cs : ChkState),
    ((l.foldl chkStep cs).ok = true) → cs.ok = true := by
  intro l
  induction l with
  | nil => intro cs h; exact h
  | cons i t ih =>
    intro cs h
    rw [List.foldl_cons] at h
    exact chkStep_ok cs i (ih (chkStep cs i) h)

/-- A false keyMem gives non-membership. -/
theorem keyMem_false (l : List GridKey) (k : GridKey)
    (hf : keyMem k l = false) : ¬(k ∈ l) := by
  intro hmem
  rw [← keyMem_iff] at hmem
  rw [hf] at hmem
  exact Bool.false_ne_true hmem

/-- One lockstep step: if the generator's rounded spiral coordinates at
step i match the table and the checker step keeps the verdict true, the
invariant carries from the pre-states to the post-states, for every
Math.random stream. -/
theorem chkStep_inv (cosF sinF : ℚ → ℚ) (rand : ℕ → ℚ) (cs : ChkState)
    (sp : SpiralState) (i : ℕ)
    (hbx : spiralBx cosF sinF i = (spiralTable.getD i (0, 0)).1)
    (hbz : spiralBz cosF sinF i = (spiralTable.getD i (0, 0)).2)
    (hok : (chkStep cs i).ok = true)
    (hinv : ChkInv cs sp) :
    ChkInv (chkStep cs i) (spiralStep cosF sinF rand sp i) := by
  obtain ⟨hy, hn, hm, hsub⟩ := hinv
  set bx := (spiralTable.getD i (0, 0)).1 with hbxd
  set bz := (spiralTable.getD i (0, 0)).2 with hbzd
  simp only [chkStep, apply_ite ChkState.ok] at hok
  rw [← hbxd, ← hbzd] at hok
  have hokA : cs.ok = true ∧ keyMem (bx, cs.curY, bz) cs.cells = false := by
    have hok' := hok
    split_ifs at hok' with h h2 <;>
      simp only [Bool.and_eq_true, Bool.not_eq_true'] at hok' <;> tauto
  have hc1cells : ((bx, cs.curY, bz) : GridKey) ∉ cs.cells :=
    keyMem_false _ _ hokA.2
  have hyk : ((bx, sp.currentY, bz) : GridKey) = (bx, cs.curY, bz) := by rw [hy]
  have hc1g : ((bx, sp.currentY, bz) : GridKey) ∉ genKeys sp.gen := fun h =>
    hc1cells (hyk ▸ hsub _ h)
  have hg1 := addBlock_inv sp.gen bx sp.currentY bz BlockType.Standard hn hm hc1g
  have hsub1 : ∀ k ∈ genKeys (addBlock sp.gen bx sp.currentY bz
      BlockType.Standard), k ∈ ((bx, cs.curY, bz) : GridKey) :: cs.cells := by
    rw [genKeys_addBlock]
    intro k hk
    rcases List.mem_append.mp hk with hk | hk
    · exact List.mem_cons_of_mem _ (hsub _ hk)
    · rw [List.mem_singleton] at hk
      rw [hk, hyk]
      exact List.mem_cons_self _ _
  have hside : ∀ nx : ℤ, nx = bx + 1 ∨ nx = bx - 1 →
      ∀ g2 : GenState,
        (g2 = addBlock sp.gen bx sp.currentY bz BlockType.Standard ∨
          (BlockMap.has (addBlock sp.gen bx sp.currentY bz
              BlockType.Standard).blockMap (nx, sp.currentY, bz) = false ∧
            g2 = addBlock (addBlock sp.gen bx sp.currentY bz BlockType.Standard)
              nx sp.currentY bz BlockType.Standard)) →
        (genKeys g2).Nodup ∧ mapKeys g2 = genKeys g2 ∧
        ∀ k ∈ genKeys g2,
          k ∈ ((bx + 1, cs.curY, bz) : GridKey) ::
            ((bx - 1, cs.curY, bz) : GridKey) :: (bx, cs.curY, bz) :: cs.cells := by
    intro nx hnx g2 hg2
    rcases hg2 with rfl | ⟨hhas0, rfl⟩
    · exact ⟨hg1.1, hg1.2, fun k hk =>
        List.mem_cons_of_mem _ (List.mem_cons_of_mem _ (hsub1 _ hk))⟩
    · have hfresh : ((nx, sp.currentY, bz) : GridKey) ∉
          genKeys (addBlock sp.gen bx sp.currentY bz BlockType.Standard) := by
        intro hmem
        rw [← hg1.2] at hmem
        have hht := (has_iff_mapKeys _ _).mpr hmem
        rw [hhas0] at hht
        exact Bool.false_ne_true hht
      have hg2i := addBlock_inv _ nx sp.currentY bz BlockType.Standard
        hg1.1 hg1.2 hfresh
      refine ⟨hg2i.1, hg2i.2, ?_⟩
      rw [genKeys_addBlock]
      intro k hk
      rcases List.mem_append.mp hk with hk | hk
      · exact List.mem_cons_of_mem _ (List.mem_cons_of_mem _ (hsub1 _ hk))
      · rw [List.mem_singleton] at hk
        subst hk
        rcases hnx with rfl | rfl
        · rw [show ((bx + 1, sp.currentY, bz) : GridKey) =
            (bx + 1, cs.curY, bz) from by rw [hy]]
          exact List.mem_cons_self _ _
        · rw [show ((bx - 1, sp.currentY, bz) : GridKey) =
            (bx - 1, cs.curY, bz) from by rw [hy]]
          exact List.mem_cons_of_mem _ (List.mem_cons_self _ _)
  have hspike : ∀ (g2 : GenState) (cl2 : List GridKey),
      (genKeys g2).Nodup → mapKeys g2 = genKeys g2 →
      (∀ k ∈ genKeys g2, k ∈ cl2) →
      ((bx, cs.curY + 1, bz) : GridKey) ∉ cl2 →
      (genKeys (addBlock g2 bx (sp.currentY + 1) bz BlockType.Spike)).Nodup ∧
      mapKeys (addBlock g2 bx (sp.currentY + 1) bz BlockType.Spike) =
        genKeys (addBlock g2 bx (sp.currentY + 1) bz BlockType.Spike) ∧
      ∀ k ∈ genKeys (addBlock g2 bx (sp.currentY + 1) bz BlockType.Spike),
        k ∈ ((bx, cs.curY + 1, bz) : GridKey) :: cl2 := by
    intro g2 cl2 hn2 hm2 hs2 hc2
    have hyk2 : ((bx, sp.currentY + 1, bz) : GridKey) =
        (bx, cs.curY + 1, bz) := by rw [hy]
    have hfresh : ((bx, sp.currentY + 1, bz) : GridKey) ∉ genKeys g2 := fun h =>
      hc2 (hyk2 ▸ hs2 _ h)
    have hgi := addBlock_inv g2 bx (sp.currentY + 1) bz BlockType.Spike
      hn2 hm2 hfresh
    refine ⟨hgi.1, hgi.2, ?_⟩
    rw [genKeys_addBlock]
    intro k hk
    rcases List.mem_append.mp hk with hk | hk
    · exact List.mem_cons_of_mem _ (hs2 _ hk)
    · rw [List.mem_singleton] at hk
      rw [hk, hyk2]
      exact List.mem_cons_self _ _
  rw [chkStep, spiralStep, hbx, hbz, ← hbxd, ← hbzd]
  by_cases h6 : i % 6 = 0
  · simp only [if_pos h6]
    by_cases hr : (1/2 : ℚ) < rand sp.randIdx
    · simp only [if_pos hr]
      by_cases hhas : BlockMap.has (addBlock sp.gen bx sp.currentY bz
          BlockType.Standard).blockMap (bx + 1, sp.currentY, bz) = true
      · simp only [if_pos hhas]
        have hmid := hside (bx + 1) (Or.inl rfl) _ (Or.inl rfl)
        by_cases hspk : 10 < i ∧ i % 8 = 0
        · simp only [if_pos hspk]
          simp only [if_pos hspk, if_pos h6, Bool.and_eq_true,
            Bool.not_eq_true'] at hok
          have hfin := hspike _ _ hmid.1 hmid.2.1 hmid.2.2
            (keyMem_false _ _ hok.2)
          exact ⟨hy, hfin.1, hfin.2.1, hfin.2.2⟩
        · simp only [if_neg hspk]
          by_cases h2 : i % 2 = 0
          · simp only [if_pos h2]
            exact ⟨by rw [hy], hmid.1, hmid.2.1, hmid.2.2⟩
          · simp only [if_neg h2]
            exact ⟨hy, hmid.1, hmid.2.1, hmid.2.2⟩
      · rw [Bool.not_eq_true] at hhas
        simp only [hhas, if_false, Bool.false_eq_true]
        have hmid := hside (bx + 1) (Or.inl rfl) _ (Or.inr ⟨hhas, rfl⟩)
        by_cases hspk : 10 < i ∧ i % 8 = 0
        · simp only [if_pos hspk]
          simp only [if_pos hspk, if_pos h6, Bool.and_eq_true,
            Bool.not_eq_true'] at hok
          have hfin := hspike _ _ hmid.1 hmid.2.1 hmid.2.2
            (keyMem_false _ _ hok.2)
          exact ⟨hy, hfin.1, hfin.2.1, hfin.2.2⟩
        · simp only [if_neg hspk]
          by_cases h2 : i % 2 = 0
          · simp only [if_pos h2]
            exact ⟨by rw [hy], hmid.1, hmid.2.1, hmid.2.2⟩
          · simp only [if_neg h2]
            exact ⟨hy, hmid.1, hmid.2.1, hmid.2.2⟩
    · simp only [if_neg hr]
      by_cases hhas : BlockMap.has (addBlock sp.gen bx sp.currentY bz
          BlockType.Standard).blockMap (bx + -1, sp.currentY, bz) = true
      · simp only [if_pos hhas]
        have hmid := hside (bx - 1) (Or.inr rfl) _ (Or.inl rfl)
        by_cases hspk : 10 < i ∧ i % 8 = 0
        · simp only [if_pos hspk]
          simp only [if_pos hspk, if_pos h6, Bool.and_eq_true,
            Bool.not_eq_true'] at hok
          have hfin := hspike _ _ hmid.1 hmid.2.1 hmid.2.2
            (keyMem_false _ _ hok.2)
          exact ⟨hy, hfin.1, hfin.2.1, hfin.2.2⟩
        · simp only [if_neg hspk]
          by_cases h2 : i % 2 = 0
          · simp only [if_pos h2]
            exact ⟨by rw [hy], hmid.1, hmid.2.1, hmid.2.2⟩
          · simp only [if_neg h2]
            exact ⟨hy, hmid.1, hmid.2.1, hmid.2.2⟩
      · rw [Bool.not_eq_true] at hhas
        simp only [hhas, if_false, Bool.false_eq_true]
        have hmid := hside (bx - 1) (Or.inr rfl) _ (Or.inr ⟨by
          rw [show bx - 1 = bx + -1 from by ring]
          exact hhas, by rw [show bx - 1 = bx + -1 from by ring]⟩)
        by_cases hspk : 10 < i ∧ i % 8 = 0
        · simp only [if_pos hspk]
          simp only [if_pos hspk, if_pos h6, Bool.and_eq_true,
            Bool.not_eq_true'] at hok
          have hfin := hspike _ _ hmid.1 hmid.2.1 hmid.2.2
            (keyMem_false _ _ hok.2)
          exact ⟨hy, hfin.1, hfin.2.1, hfin.2.2⟩
        · simp only [if_neg hspk]
          by_cases h2 : i % 2 = 0
          · simp only [if_pos h2]
            exact ⟨by rw [hy], hmid.1, hmid.2.1, hmid.2.2⟩
          · simp only [if_neg h2]
            exact ⟨hy, hmid.1, hmid.2.1, hmid.2.2⟩
  · simp only [if_neg h6]
    by_cases hspk : 10 < i ∧ i % 8 = 0
    · simp only [if_pos hspk]
      simp only [if_pos hspk, if_neg h6, Bool.and_eq_true,
        Bool.not_eq_true'] at hok
      have hfin := hspike _ _ hg1.1 hg1.2 hsub1 (keyMem_false _ _ hok.2)
      exact ⟨hy, hfin.1, hfin.2.1, hfin.2.2⟩
    · simp only [if_neg hspk]
      by_cases h2 : i % 2 = 0
      · simp only [if_pos h2]
        exact ⟨by rw [hy], hg1.1, hg1.2, hsub1⟩
      · simp only [if_neg h2]
        exact ⟨hy, hg1.1, hg1.2, hsub1⟩

/-- The invariant holds at the base platform. -/
theorem chkInit_inv : ChkInv chkInit ⟨baseState, 1, 0⟩ := by
  refine ⟨rfl, ?_, ?_, ?_⟩ <;> decide

/-- The invariant carries over the whole spiral loop. -/
theorem chkFold_inv (cosF sinF : ℚ → ℚ) (rand : ℕ → ℚ) :
    ∀ (l : List ℕ) (cs : ChkState) (sp : SpiralState),
      (∀ i ∈ l, spiralBx cosF sinF i = (spiralTable.getD i (0, 0)).1 ∧
        spiralBz cosF sinF i = (spiralTable.getD i (0, 0)).2) →
      ((l.foldl chkStep cs).ok = true) → ChkInv cs sp →
      ChkInv (l.foldl chkStep cs) (l.foldl (spiralStep cosF sinF rand) sp) := by
  intro l
  induction l with
  | nil => intro cs sp _ _ hinv; exact hinv
  | cons i t ih =>
    intro cs sp ht hok hinv
    rw [List.foldl_cons] at hok ⊢
    rw [List.foldl_cons]
    have hoki : (chkStep cs i).ok = true := chkFold_ok t (chkStep cs i) hok
    exact ih (chkStep cs i) (spiralStep cosF sinF rand sp i)
      (fun j hj => ht j (List.mem_cons_of_mem _ hj))
      hok
      (chkStep_inv cosF sinF rand cs sp i (ht i (List.mem_cons_self _ _)).1
        (ht i (List.mem_cons_self _ _)).2 hoki hinv)

/-- C9: BlockIndex uniqueness.  For any trig functions whose rounded
spiral coordinates agree with the concrete table (as the real Math.cos and
Math.sin do; the witness instantiates exact table-backed functions) and any
Math.random stream, the generate output has pairwise-distinct grid keys,
the block map's key sequence equals the block array's key sequence (every
map.set appended a fresh key, so no insertion ever overwrote an existing
entry), and the map has exactly one entry per block. -/
theorem blockIndex_unique (cosF sinF : ℚ → ℚ) (rand : ℕ → ℚ)
    (ht : ∀ i, i < 100 →
      spiralBx cosF sinF i = (spiralTable.getD i (0, 0)).1 ∧
      spiralBz cosF sinF i = (spiralTable.getD i (0, 0)).2) :
    (genKeys (generate cosF sinF rand).1).Nodup ∧
    mapKeys (generate cosF sinF rand).1 = genKeys (generate cosF sinF rand).1 ∧
    (generate cosF sinF rand).1.blockMap.length =
      (generate cosF sinF rand).1.blocksData.length := by
  have hrun : ChkInv chkRun
      ((List.range 100).foldl (spiralStep cosF sinF rand) ⟨baseState, 1, 0⟩) :=
    chkFold_inv cosF sinF rand (List.range 100) chkInit ⟨baseState, 1, 0⟩
      (fun i hi => ht i (List.mem_range.mp hi)) chkRun_ok chkInit_inv
  obtain ⟨hy, hn, hm, hsub⟩ := hrun
  have hcf := chkFinal_true
  rw [chkFinal] at hcf
  simp only [Bool.and_eq_true, Bool.not_eq_true'] at hcf
  set spEnd := (List.range 100).foldl (spiralStep cosF sinF rand)
    ⟨baseState, 1, 0⟩ with hspd
  have hk1 : ((0 : ℤ), spEnd.currentY + 1, (0 : ℤ)) ∉ genKeys spEnd.gen := by
    intro hmem
    have h1 := hsub _ hmem
    rw [show ((0 : ℤ), spEnd.currentY + 1, (0 : ℤ)) =
      (0, chkRun.curY + 1, 0) from by rw [hy]] at h1
    exact (keyMem_false _ _ hcf.1.2) h1
  have hg1 := addBlock_inv spEnd.gen 0 (spEnd.currentY + 1) 0
    BlockType.Standard hn hm hk1
  have hsubg1 : ∀ k ∈ genKeys (addBlock spEnd.gen 0 (spEnd.currentY + 1) 0
      BlockType.Standard),
      k ∈ ((0 : ℤ), chkRun.curY + 1, (0 : ℤ)) :: chkRun.cells := by
    rw [genKeys_addBlock]
    intro k hk
    rcases List.mem_append.mp hk with hk | hk
    · exact List.mem_cons_of_mem _ (hsub _ hk)
    · rw [List.mem_singleton] at hk
      rw [hk, show ((0 : ℤ), spEnd.currentY + 1, (0 : ℤ)) =
        (0, chkRun.curY + 1, 0) from by rw [hy]]
      exact List.mem_cons_self _ _
  have hk2 : ((0 : ℤ), spEnd.currentY + 1 + 1, (0 : ℤ)) ∉
      genKeys (addBlock spEnd.gen 0 (spEnd.currentY + 1) 0
        BlockType.Standard) := by
    intro hmem
    have h1 := hsubg1 _ hmem
    rw [show ((0 : ℤ), spEnd.currentY + 1 + 1, (0 : ℤ)) =
      (0, chkRun.curY + 2, 0) from by
        rw [show spEnd.currentY + 1 + 1 = chkRun.curY + 2 from by omega]] at h1
    exact (keyMem_false _ _ hcf.2) h1
  have hg2 := addBlock_inv _ 0 (spEnd.currentY + 1 + 1) 0 BlockType.Spike
    hg1.1 hg1.2 hk2
  refine ⟨hg2.1, hg2.2, ?_⟩
  have hlen := congrArg List.length hg2.2
  simp only [mapKeys, genKeys, List.length_map] at hlen
  exact hlen

/-- Witness cosine: a table-backed step function agreeing with cos at the
arguments i * 0.35 the generator uses (values quantized to 1e-4). -/
def cosW : ℚ → ℚ := fun q =>
  ((cosZtab.getD (⌊q * 20 / 7⌋).toNat 0 : ℤ) : ℚ) / 10000

/-- Witness sine: table-backed, agreeing with sin at i * 0.35 and i * 0.1
(values quantized to 1e-4). -/
def sinW : ℚ → ℚ := fun q =>
  ((sinZtab.getD (⌊q * 20⌋).toNat 0 : ℤ) : ℚ) / 10000

/-- cosW at the spiral angle i * 0.35 reads table entry i. -/
theorem cosW_at (i : ℕ) :
    cosW ((i : ℚ) * (7/20)) = ((cosZtab.getD i 0 : ℤ) : ℚ) / 10000 := by
  simp only [cosW]
  rw [show ((i : ℚ) * (7/20) * 20 / 7) = ((i : ℕ) : ℚ) from by push_cast; ring,
    Int.floor_natCast, Int.toNat_natCast]

/-- sinW at the spiral angle i * 0.35 reads table entry 7i. -/
theorem sinW_at20 (i : ℕ) :
    sinW ((i : ℚ) * (7/20)) = ((sinZtab.getD (7 * i) 0 : ℤ) : ℚ) / 10000 := by
  simp only [sinW]
  rw [show ((i : ℚ) * (7/20) * 20) = ((7 * i : ℕ) : ℚ) from by push_cast; ring,
    Int.floor_natCast, Int.toNat_natCast]

/-- sinW at the radius angle i * 0.1 reads table entry 2i. -/
theorem sinW_at10 (i : ℕ) :
    sinW ((i : ℚ) * (1/10)) = ((sinZtab.getD (2 * i) 0 : ℤ) : ℚ) / 10000 := by
  simp only [sinW]
  rw [show ((i : ℚ) * (1/10) * 20) = ((2 * i : ℕ) : ℚ) from by push_cast; ring,
    Int.floor_natCast, Int.toNat_natCast]

/-- The rounded spiral coordinate as a single integer floor division. -/
theorem roundJS_tab (c s : ℤ) :
    roundJS ((c : ℚ) / 10000 * (4 + (s : ℚ) / 10000 * (3/2))) =
      (c * (80000 + 3 * s) + 100000000) / ((200000000 : ℕ) : ℤ) := by
  rw [roundJS]
  rw [show ((c : ℚ) / 10000 * (4 + (s : ℚ) / 10000 * (3/2)) + 1/2) =
      (((c * (80000 + 3 * s) + 100000000 : ℤ) : ℚ)) /
        (((200000000 : ℕ) : ℚ)) from by push_cast; ring]
  exact Rat.floor_intCast_div_natCast _ _

/-- spiralBx on the witness trig, as integer arithmetic. -/
theorem spiralB_cosW (i : ℕ) :
    spiralBx cosW sinW i =
      (cosZtab.getD i 0 * (80000 + 3 * sinZtab.getD (2 * i) 0) + 100000000) /
        ((200000000 : ℕ) : ℤ) := by
  rw [spiralBx, cosW_at, sinW_at10, roundJS_tab]

/-- spiralBz on the witness trig, as integer arithmetic. -/
theorem spiralB_sinW (i : ℕ) :
    spiralBz cosW sinW i =
      (sinZtab.getD (7 * i) 0 * (80000 + 3 * sinZtab.getD (2 * i) 0) +
        100000000) / ((200000000 : ℕ) : ℤ) := by
  rw [spiralBz, sinW_at20, sinW_at10, roundJS_tab]

set_option maxHeartbeats 2000000 in
set_option maxRecDepth 20000 in
/-- The witness trig functions reproduce the concrete coordinate table at
all 100 spiral steps. -/
theorem witness_table : ∀ i, i < 100 →
    spiralBx cosW sinW i = (spiralTable.getD i (0, 0)).1 ∧
    spiralBz cosW sinW i = (spiralTable.getD i (0, 0)).2 := by
  have h : ∀ j, j < 100 →
      (cosZtab.getD j 0 * (80000 + 3 * sinZtab.getD (2 * j) 0) + 100000000) /
          ((200000000 : ℕ) : ℤ) = (spiralTable.getD j (0, 0)).1 ∧
        (sinZtab.getD (7 * j) 0 * (80000 + 3 * sinZtab.getD (2 * j) 0) +
          100000000) / ((200000000 : ℕ) : ℤ) =
          (spiralTable.getD j (0, 0)).2 := by decide
  intro i hi
  rw [spiralB_cosW, spiralB_sinW]
  exact h i hi

/-- C9 witness: the uniqueness theorem applied at the table-backed trig
functions and the all-zero random stream. -/
theorem blockIndex_unique_witness :
    (genKeys (generate cosW sinW (fun _ => 0)).1).Nodup ∧
    mapKeys (generate cosW sinW (fun _ => 0)).1 =
      genKeys (generate cosW sinW (fun _ => 0)).1 ∧
    (generate cosW sinW (fun _ => 0)).1.blockMap.length =
      (generate cosW sinW (fun _ => 0)).1.blocksData.length :=
  blockIndex_unique cosW sinW (fun _ => 0) witness_table
